import Mathlib

/-!
# SybilShield relayer — formal model

A shallow embedding of the SybilShield relayer's verification/badge/vote
pipeline (TypeScript, Express) and proofs about its claims.

Modelling conventions:
* JavaScript `Map` objects are modelled as insertion-ordered association
  lists (`mapGet` / `mapSet` / `mapValues`), matching `Map.get`, `Map.set`
  (in-place update of an existing key, append otherwise) and
  `Array.from(map.values())` enumeration order.
* The badge store (`src/routes/badge.ts`) stores the *same* mutable
  `BadgeRecord` object under two keys (`badgeId` and `"addr:" ++ address`).
  We model this aliasing with a heap: `BadgeStore.heap` maps an object
  identity (the badge id, which is the key the object is always stored
  under at creation) to the object's current field values, and
  `BadgeStore.entries` maps a `Map` key to the object identity.  Mutating
  a record therefore updates it under every key that references it,
  exactly as in JavaScript.
* Wall-clock times (`Date.now()`, `new Date()`) are naturals (milliseconds)
  passed to each operation as an explicit `now` argument; the several
  reads of the clock inside one handler are identified.
* `crypto.createHash('sha256')...digest('hex')` is abstracted as an
  explicit function parameter `h : String → String`: the development
  never relies on properties of SHA-256 other than determinism (which any
  function satisfies) and, where a claim needs collision resistance, an
  explicit injectivity hypothesis on `h`.
* `uuidv4()` / `generateNonce()` results are explicit arguments; where a
  proof needs uniqueness of generated uuids it carries an explicit
  freshness hypothesis.
* Async handlers never interleave in this model: each operation of a trace
  runs to completion before the next starts (sequential semantics); an
  issuance operation contributes both its intermediate (pending-written)
  store and its final store to the trace's observable states.
-/

namespace SybilShield

/-! ## Association-list model of JavaScript `Map` -/

/-- `Map.get k`. -/
def mapGet {α : Type} (m : List (String × α)) (k : String) : Option α :=
  (m.find? (fun e => e.1 == k)).map (fun e => e.2)

/-- `Map.set k v`: update in place when the key is present (preserving
insertion order), append otherwise. -/
def mapSet {α : Type} : List (String × α) → String → α → List (String × α)
  | [], k, v => [(k, v)]
  | e :: rest, k, v =>
    if e.1 == k then (k, v) :: rest else e :: mapSet rest k v

/-- `Array.from(map.values())`. -/
def mapValues {α : Type} (m : List (String × α)) : List α :=
  m.map (fun e => e.2)

/-! ## Input format validators (middleware/auth.ts, zod schemas) -/

/-- `isValidAleoAddress` from `src/middleware/auth.ts`:
the regex `/^aleo1[a-z0-9]{58}$/`. -/
def isValidAleoAddress (address : String) : Bool :=
  address.length == 63 && address.take 5 == "aleo1" &&
    (address.drop 5).toList.all (fun c => c.isLower || c.isDigit)

/-- Hexadecimal character (either case). -/
def isHexChar (c : Char) : Bool :=
  c.isDigit || ('a' ≤ c && c ≤ 'f') || ('A' ≤ c && c ≤ 'F')

/-- Split a character list on `'-'` (the reference semantics of
`String.splitOn "-"`). -/
def splitOnDash : List Char → List (List Char)
  | [] => [[]]
  | c :: rest =>
    if c = '-' then [] :: splitOnDash rest
    else
      match splitOnDash rest with
      | g :: gs => (c :: g) :: gs
      | [] => [[c]]

/-- The `z.string().uuid()` format check of the badge issuance schema:
five dash-separated hexadecimal groups of lengths 8-4-4-4-12. -/
def isValidUuid (s : String) : Bool :=
  match splitOnDash s.data with
  | [a, b, c, d, e] =>
      a.length == 8 && b.length == 4 && c.length == 4 && d.length == 4 &&
      e.length == 12 && (a ++ b ++ c ++ d ++ e).all isHexChar
  | _ => false

/-! ## Commitment engine (src/utils/crypto.ts)

`h` stands for the hex digest of SHA-256 (the stand-in for BHP256 used by
the source). -/

/-- Input of `generateProofHash` (interface `ProofHashInput`). -/
structure ProofHashInput where
  provider : String
  address : String
  verificationData : String
  timestamp : Nat
deriving DecidableEq

/-- The string hashed by `generateProofHash`:
`[provider, address, verificationData, timestamp.toString()].join('|')`. -/
def proofHashPreimage (input : ProofHashInput) : String :=
  String.intercalate "|"
    [input.provider, input.address, input.verificationData,
     toString input.timestamp]

/-- `generateProofHash` from `src/utils/crypto.ts`: the SHA-256 hex digest
of the joined fields, with `"field"` appended. -/
def generateProofHash (h : String → String) (input : ProofHashInput) : String :=
  h (proofHashPreimage input) ++ "field"

/-- `bhp256Hash` from `src/utils/crypto.ts` (SHA-256 hex digest). -/
def bhp256Hash (h : String → String) (input : String) : String :=
  h input

/-- The string hashed by `createVoteNullifier`:
`` `${proposalId}|${voterAddress}|${badgeNonce}` ``. -/
def nullifierPreimage (proposalId : Nat) (voterAddress badgeNonce : String) :
    String :=
  toString proposalId ++ "|" ++ voterAddress ++ "|" ++ badgeNonce

/-- `createVoteNullifier` from `src/utils/crypto.ts`. -/
def createVoteNullifier (h : String → String) (proposalId : Nat)
    (voterAddress badgeNonce : String) : String :=
  bhp256Hash h (nullifierPreimage proposalId voterAddress badgeNonce) ++ "field"

/-! ## Data model (src/types.ts) -/

/-- `BadgeStatus`. -/
inductive BadgeStatus
  | pending
  | active
  | expired
  | revoked
  | failed
deriving DecidableEq

/-- `VerificationStatus`. -/
inductive VerificationStatus
  | pending
  | verified
  | rejected
  | expired
deriving DecidableEq

/-- String rendering of a badge status (template literals in responses). -/
def badgeStatusStr : BadgeStatus → String
  | .pending => "pending"
  | .active => "active"
  | .expired => "expired"
  | .revoked => "revoked"
  | .failed => "failed"

/-- String rendering of a verification status. -/
def verificationStatusStr : VerificationStatus → String
  | .pending => "pending"
  | .verified => "verified"
  | .rejected => "rejected"
  | .expired => "expired"

/-- `VerificationRecord` (providers are the literal strings of the source;
`providerData` is an opaque audit payload). -/
structure VerificationRecord where
  id : String
  address : String
  provider : String
  status : VerificationStatus
  proofHash : String
  createdAt : Nat
  expiresAt : Nat
  providerData : String
deriving DecidableEq

/-- `BadgeRecord` (the optional `transactionId` field is never stored by
the badge routes — the transaction id only appears in the response — so it
is omitted). -/
structure BadgeRecord where
  id : String
  address : String
  issuer : String
  proofHash : String
  createdAt : Nat
  expiresAt : Nat
  status : BadgeStatus
  nonce : String
deriving DecidableEq

/-! ## Error taxonomy (src/middleware/errorHandler.ts) -/

/-- An `AppError`: operational error with HTTP status and machine code. -/
structure AppErr where
  statusCode : Nat
  code : String
  message : String
deriving DecidableEq

/-- A thrown JavaScript error: either one of the typed `AppError`
subclasses or a plain `new Error(message)`. -/
inductive Thrown
  | app (e : AppErr)
  | generic (message : String)
deriving DecidableEq

/-- `ValidationError`. -/
def validationError (message : String) : Thrown :=
  .app ⟨400, "VALIDATION_ERROR", message⟩

/-- `NotFoundError`. -/
def notFoundError (resource : String) : Thrown :=
  .app ⟨404, "NOT_FOUND", resource ++ " not found"⟩

/-- `ConflictError`. -/
def conflictError (message : String) : Thrown :=
  .app ⟨409, "CONFLICT", message⟩

/-- The `errorHandler` middleware: an `AppError` keeps its status code,
code and message; any other error (in particular a plain `Error`) falls
through to `500 / INTERNAL_ERROR / "An unexpected error occurred"`.
(The `SyntaxError` and zod branches of the source are unreachable for the
errors thrown by the modelled handlers: every typed error is an
`AppError`.) -/
def errorHandler : Thrown → Nat × String × String
  | .app e => (e.statusCode, e.code, e.message)
  | .generic _ => (500, "INTERNAL_ERROR", "An unexpected error occurred")

/-- Outcome of a route handler: a success body or a thrown error. -/
inductive Outcome (α : Type)
  | ok (data : α)
  | err (e : Thrown)
deriving DecidableEq

/-- Relevant configuration (src/config.ts). -/
structure Config where
  demoMode : Bool
  issuerAddress : String
  defaultValiditySeconds : Nat
deriving DecidableEq

/-! ## Badge store (src/routes/badge.ts)

`badgeStore` is one JavaScript `Map` whose values are shared mutable
objects; see the module docstring for the heap/entries encoding. -/

/-- The badge store: `entries` is the `Map` (key ↦ object identity),
`heap` holds each object's current state keyed by its badge id. -/
structure BadgeStore where
  entries : List (String × String)
  heap : List (String × BadgeRecord)
deriving DecidableEq

/-- The store at process start: an empty `Map`. -/
def BadgeStore.empty : BadgeStore := ⟨[], []⟩

/-- The key under which a badge is indexed by address:
`` `addr:${address}` ``. -/
def addrKey (address : String) : String := "addr:" ++ address

/-- `badgeStore.set(k, b)` where the object being stored has identity
`oid` (its heap slot) and current field values `b`: the `Map` key `k` is
pointed at the object, and — since `b` is the object's current state —
the heap slot is brought up to date (this also models in-place mutation
of the shared object, which is visible through every key referencing
it). -/
def badgeStoreSetRef (s : BadgeStore) (k oid : String) (b : BadgeRecord) :
    BadgeStore :=
  { entries := mapSet s.entries k oid, heap := mapSet s.heap oid b }

/-- `badgeStore.get(k)`, keeping the object identity (heap slot) of the
returned object alongside its current state. -/
def badgeStoreEntry (s : BadgeStore) (k : String) :
    Option (String × BadgeRecord) :=
  (mapGet s.entries k).bind
    (fun oid => (mapGet s.heap oid).map (fun b => (oid, b)))

/-- `badgeStore.get(k)` (dereferencing the object). -/
def badgeStoreGet (s : BadgeStore) (k : String) : Option BadgeRecord :=
  (badgeStoreEntry s k).map (fun e => e.2)

/-- `Array.from(badgeStore.values())` — one element per `Map` entry, each
dereferenced to the object's current state. -/
def badgeValues (s : BadgeStore) : List BadgeRecord :=
  s.entries.filterMap (fun e => mapGet s.heap e.2)

/-- The existing-badge scan of `POST /badge/request-issuance`:
`values().find(b => b.address === address && b.status === 'active')`. -/
def findActiveBadge (s : BadgeStore) (address : String) : Option BadgeRecord :=
  (badgeValues s).find?
    (fun b => b.address == address && b.status == BadgeStatus.active)

/-- `getBadgeByAddress` from `src/routes/badge.ts`. -/
def getBadgeByAddress (s : BadgeStore) (address : String) : Option BadgeRecord :=
  badgeStoreGet s (addrKey address)

/-! ## Verification store and routes (src/routes/verification.ts) -/

/-- The in-memory verification store, keyed by verification id. -/
def VerificationStore : Type := List (String × VerificationRecord)

/-- `getVerificationById` from `src/routes/verification.ts`. -/
def getVerificationById (vs : VerificationStore) (id : String) :
    Option VerificationRecord :=
  mapGet vs id

/-- The existing-verification scan shared by the three verification
routes: `values().find(v => v.address === address && v.status ===
'verified' && v.expiresAt > new Date())`. -/
def findExistingVerification (vs : VerificationStore) (now : Nat)
    (address : String) : Option VerificationRecord :=
  (mapValues vs).find?
    (fun v => v.address == address && v.status == VerificationStatus.verified
      && decide (now < v.expiresAt))

/-- Body of a verification response (`VerificationResponse`). -/
structure VerificationData where
  verification_id : String
  status : VerificationStatus
  proof_hash : String
  expires_at : Nat
  provider : String
  message : String
deriving DecidableEq

/-- `POST /verify/proof-of-humanity`.  `urlValid` is the result of zod's
URL check on `poh_profile_url`; `pohResult` is the outcome of the awaited
`verifyPoH` call — `none` when it threw, otherwise
`(registered, submissionTime)`; `newId` is the generated uuid. -/
def submitPoHVerification (cfg : Config) (h : String → String)
    (vs : VerificationStore) (now : Nat) (address : String) (urlValid : Bool)
    (pohResult : Option (Bool × Nat)) (newId : String) :
    Outcome VerificationData × VerificationStore :=
  if !(urlValid && isValidAleoAddress address) then
    (.err (validationError "Invalid request body"), vs)
  else
    match findExistingVerification vs now address with
    | some existing =>
        (.ok { verification_id := existing.id, status := .verified,
               proof_hash := existing.proofHash,
               expires_at := existing.expiresAt / 1000,
               provider := "proof_of_humanity",
               message := "Already verified" }, vs)
    | none =>
        match pohResult with
        | none =>
            (.err (validationError "Failed to verify Proof of Humanity profile"),
             vs)
        | some (registered, submissionTime) =>
            let expiresAt := now + cfg.defaultValiditySeconds * 1000
            let proofHash := generateProofHash h
              { provider := "proof_of_humanity", address,
                verificationData := toString submissionTime, timestamp := now }
            let record : VerificationRecord :=
              { id := newId, address, provider := "proof_of_humanity",
                status := if registered then .verified else .rejected,
                proofHash, createdAt := now, expiresAt,
                providerData := "pohResult" }
            (.ok { verification_id := newId, status := record.status,
                   proof_hash := proofHash, expires_at := expiresAt / 1000,
                   provider := "proof_of_humanity",
                   message := if registered then
                       "Successfully verified via Proof of Humanity"
                     else
                       "Proof of Humanity verification failed - not registered" },
             mapSet vs newId record)

/-- `POST /verify/worldcoin`.  `tokenValid` is zod's non-empty check on
`worldcoin_token`; `worldcoinResult` is the outcome of the awaited
`verifyWorldcoin` call — `none` when it threw, otherwise
`(verified, nullifierHash)`. -/
def submitWorldcoinVerification (cfg : Config) (h : String → String)
    (vs : VerificationStore) (now : Nat) (address : String) (tokenValid : Bool)
    (worldcoinResult : Option (Bool × String)) (newId : String) :
    Outcome VerificationData × VerificationStore :=
  if !(tokenValid && isValidAleoAddress address) then
    (.err (validationError "Invalid request body"), vs)
  else
    match findExistingVerification vs now address with
    | some existing =>
        (.ok { verification_id := existing.id, status := .verified,
               proof_hash := existing.proofHash,
               expires_at := existing.expiresAt / 1000,
               provider := "worldcoin",
               message := "Already verified" }, vs)
    | none =>
        match worldcoinResult with
        | none =>
            (.err (validationError "Failed to verify Worldcoin proof"), vs)
        | some (verified, nullifierHash) =>
            let expiresAt := now + cfg.defaultValiditySeconds * 1000
            let proofHash := generateProofHash h
              { provider := "worldcoin", address,
                verificationData := nullifierHash, timestamp := now }
            let record : VerificationRecord :=
              { id := newId, address, provider := "worldcoin",
                status := if verified then .verified else .rejected,
                proofHash, createdAt := now, expiresAt,
                providerData := "worldcoinResult" }
            (.ok { verification_id := newId, status := record.status,
                   proof_hash := proofHash, expires_at := expiresAt / 1000,
                   provider := "worldcoin",
                   message := if verified then
                       "Successfully verified via Worldcoin"
                     else "Worldcoin verification failed" },
             mapSet vs newId record)

/-- Lowercase hexadecimal character (the `/^[a-f0-9]+$/` class). -/
def isLowerHexChar (c : Char) : Bool :=
  c.isDigit || ('a' ≤ c && c ≤ 'f')

/-- `POST /verify/liveness`.  The liveness check is local: the schema
requires `proof_hash` of length ≥ 16, and the handler additionally
requires it to match `/^[a-f0-9]+$/`; on success the record is always
`verified`. -/
def submitLivenessVerification (cfg : Config) (h : String → String)
    (vs : VerificationStore) (now : Nat) (address proof_hash : String)
    (newId : String) : Outcome VerificationData × VerificationStore :=
  if !(decide (16 ≤ proof_hash.length) && isValidAleoAddress address) then
    (.err (validationError "Invalid request body"), vs)
  else
    match findExistingVerification vs now address with
    | some existing =>
        (.ok { verification_id := existing.id, status := .verified,
               proof_hash := existing.proofHash,
               expires_at := existing.expiresAt / 1000,
               provider := "liveness",
               message := "Already verified" }, vs)
    | none =>
      if !(decide (16 ≤ proof_hash.length)
          && proof_hash.data.all isLowerHexChar) then
        (.err (validationError "Invalid liveness proof"), vs)
      else
        let expiresAt := now + cfg.defaultValiditySeconds * 1000
        let serverProofHash := generateProofHash h
          { provider := "liveness", address,
            verificationData := proof_hash, timestamp := now }
        let record : VerificationRecord :=
          { id := newId, address, provider := "liveness",
            status := .verified, proofHash := serverProofHash,
            createdAt := now, expiresAt, providerData := "clientProofHash" }
        (.ok { verification_id := newId, status := .verified,
               proof_hash := serverProofHash, expires_at := expiresAt / 1000,
               provider := "liveness",
               message := "Successfully verified via liveness check" },
         mapSet vs newId record)

/-! ## Badge routes (src/routes/badge.ts) -/

/-- Result of the awaited `issueBadgeOnChain` call (it never throws: all
failures are caught and reported through `success: false`). -/
structure ChainResult where
  success : Bool
  transactionId : Option String
  error : Option String
deriving DecidableEq

/-- Body of a badge issuance response (`BadgeIssuanceResponse`). -/
structure BadgeIssuanceData where
  badge_ready : Bool
  badge_id : String
  transaction_id : Option String
  expires_at : Nat
  message : String
deriving DecidableEq

/-- `POST /badge/request-issuance`.

Arguments supplied by the environment: the clock `now`, the generated
uuid `badgeId`, the generated random `nonce`, and the result `chain` of
the awaited `issueBadgeOnChain` call (consulted only when
`cfg.demoMode = false`).  The returned list contains every store state
the handler produces, in order: the state with the new record written as
`pending`, then the state with that record's final status (`active` or
`failed`); it is empty when the handler rejects before writing.  The
awaited `calculateExpiryBlock` result only flows into the on-chain call,
not into the store or the response, so it is not modelled. -/
def requestIssuance (cfg : Config) (vs : VerificationStore) (s : BadgeStore)
    (now : Nat) (verification_id address badgeId nonce : String)
    (chain : ChainResult) : Outcome BadgeIssuanceData × List BadgeStore :=
  if !(isValidUuid verification_id && isValidAleoAddress address) then
    (.err (validationError "Invalid request body"), [])
  else
    match findActiveBadge s address with
    | some _ => (.err (conflictError "Badge already exists for this address"), [])
    | none =>
      match getVerificationById vs verification_id with
      | none => (.err (notFoundError "Verification"), [])
      | some verification =>
        if verification.status != VerificationStatus.verified then
          (.err (validationError
            ("Cannot issue badge: verification status is \x22"
              ++ verificationStatusStr verification.status ++ "\x22")), [])
        else if verification.address != address then
          (.err (validationError
            "Address mismatch: verification was for a different address"), [])
        else if verification.expiresAt < now then
          (.err (validationError "Verification has expired"), [])
        else
          let expiresAt := now + cfg.defaultValiditySeconds * 1000
          let badgeRecord : BadgeRecord :=
            { id := badgeId, address, issuer := cfg.issuerAddress,
              proofHash := verification.proofHash, createdAt := now,
              expiresAt, status := .pending, nonce }
          let s1 := badgeStoreSetRef
            (badgeStoreSetRef s badgeId badgeId badgeRecord)
            (addrKey address) badgeId badgeRecord
          if !cfg.demoMode then
            if !chain.success then
              let failedRec := { badgeRecord with status := BadgeStatus.failed }
              let s2 := badgeStoreSetRef
                (badgeStoreSetRef s1 badgeId badgeId failedRec)
                (addrKey address) badgeId failedRec
              (.err (.generic ("On-chain badge issuance failed: "
                ++ (chain.error.getD "Failed to issue badge on chain"))),
               [s1, s2])
            else
              let activeRec := { badgeRecord with status := BadgeStatus.active }
              let s2 := badgeStoreSetRef
                (badgeStoreSetRef s1 badgeId badgeId activeRec)
                (addrKey address) badgeId activeRec
              (.ok { badge_ready := true, badge_id := badgeId,
                     transaction_id := chain.transactionId,
                     expires_at := expiresAt / 1000,
                     message := "Badge issued on-chain. Transaction: "
                       ++ (chain.transactionId.getD "") }, [s1, s2])
          else
            let activeRec := { badgeRecord with status := BadgeStatus.active }
            let s2 := badgeStoreSetRef
              (badgeStoreSetRef s1 badgeId badgeId activeRec)
              (addrKey address) badgeId activeRec
            (.ok { badge_ready := true, badge_id := badgeId,
                   transaction_id := some ("demo_tx_" ++ badgeId),
                   expires_at := expiresAt / 1000,
                   message := "Badge issued (Demo Mode)" }, [s1, s2])

/-- The store after a `requestIssuance` call (the last state the handler
produced, or the unchanged input store when it rejected early). -/
def requestIssuanceFinal (cfg : Config) (vs : VerificationStore)
    (s : BadgeStore) (now : Nat) (verification_id address badgeId nonce : String)
    (chain : ChainResult) : BadgeStore :=
  (requestIssuance cfg vs s now verification_id address badgeId nonce
    chain).2.getLastD s

/-- Body of a renewal response. -/
structure RenewData where
  renewed : Bool
  new_expires_at : Nat
  message : String
deriving DecidableEq

/-- `POST /badge/renew`.  (An absent `address` in the body behaves like
the empty string: both fail the `!address || !isValidAleoAddress(address)`
guard.) -/
def renewBadge (cfg : Config) (s : BadgeStore) (now : Nat) (address : String) :
    Outcome RenewData × BadgeStore :=
  if !isValidAleoAddress address then
    (.err (validationError "Invalid Aleo address"), s)
  else
    match badgeStoreEntry s (addrKey address) with
    | none => (.err (notFoundError "Badge"), s)
    | some (oid, badge) =>
      if badge.status == BadgeStatus.revoked then
        (.err (validationError "Cannot renew a revoked badge"), s)
      else
        let newExpiresAt := now + cfg.defaultValiditySeconds * 1000
        let renewed :=
          { badge with expiresAt := newExpiresAt, status := BadgeStatus.active }
        let s1 := badgeStoreSetRef s (addrKey address) oid renewed
        let s2 := badgeStoreSetRef s1 badge.id oid renewed
        (.ok { renewed := true, new_expires_at := newExpiresAt / 1000,
               message := "Badge successfully renewed" }, s2)

/-- Body of a badge status response (`BadgeStatusResponse`). -/
structure BadgeStatusData where
  has_badge : Bool
  badge_status : String
  expires_at : Option Nat
  issuer : Option String
  created_at : Option Nat
  message : String
deriving DecidableEq

/-- `GET /badge/status/:address` (lazily flips an `active` badge past its
expiry to `expired`, writing back through the `addr:` key — which, by
aliasing, also updates the id-keyed view of the same object). -/
def getBadgeStatusRoute (s : BadgeStore) (now : Nat) (address : String) :
    Outcome BadgeStatusData × BadgeStore :=
  if !isValidAleoAddress address then
    (.err (validationError "Invalid Aleo address"), s)
  else
    match badgeStoreEntry s (addrKey address) with
    | none =>
        (.ok { has_badge := false, badge_status := "none",
               expires_at := none, issuer := none, created_at := none,
               message := "No badge found for this address" }, s)
    | some (oid, badge) =>
      if badge.expiresAt < now && badge.status == BadgeStatus.active then
        let flipped := { badge with status := BadgeStatus.expired }
        let s' := badgeStoreSetRef s (addrKey address) oid flipped
        (.ok { has_badge := true, badge_status := badgeStatusStr .expired,
               expires_at := some (badge.expiresAt / 1000),
               issuer := some badge.issuer,
               created_at := some (badge.createdAt / 1000),
               message := "Badge is expired" }, s')
      else
        (.ok { has_badge := true, badge_status := badgeStatusStr badge.status,
               expires_at := some (badge.expiresAt / 1000),
               issuer := some badge.issuer,
               created_at := some (badge.createdAt / 1000),
               message := "Badge is " ++ badgeStatusStr badge.status }, s)

/-! ## Sequential traces of badge operations

A trace is a list of badge operations run one after the other from the
empty store.  Everything an individual call obtains from its environment
(the clock, the current verification store, the generated uuid and nonce,
the on-chain result) is packaged in the operation. -/

/-- One badge operation together with its environment inputs. -/
inductive BadgeOp where
  | issue (vs : VerificationStore) (now : Nat)
      (verification_id address badgeId nonce : String) (chain : ChainResult)
  | renew (now : Nat) (address : String)
  | readStatus (now : Nat) (address : String)

/-- Does `k` have the shape of an address key, i.e. start with `"addr:"`?
(Generated uuids never do: they contain only hex digits and dashes.) -/
def isAddrKey (k : String) : Bool :=
  match k.data with
  | 'a' :: 'd' :: 'd' :: 'r' :: ':' :: _ => true
  | _ => false

/-- Environment side conditions of one operation: a generated badge uuid
is fresh (uuidv4 collisions are assumed not to occur) and is not shaped
like an address key (uuids contain no `':'`). -/
def opOk (s : BadgeStore) : BadgeOp → Bool
  | .issue _ _ _ _ badgeId _ _ =>
      (mapGet s.heap badgeId).isNone && !isAddrKey badgeId
  | .renew _ _ => true
  | .readStatus _ _ => true

/-- The store states an operation passes through (in order); empty when
the operation does not write. -/
def opStates (cfg : Config) (s : BadgeStore) : BadgeOp → List BadgeStore
  | .issue vs now vid addr badgeId nonce chain =>
      (requestIssuance cfg vs s now vid addr badgeId nonce chain).2
  | .renew now addr => [(renewBadge cfg s now addr).2]
  | .readStatus now addr => [(getBadgeStatusRoute s now addr).2]

/-- The store after an operation completes. -/
def opFinal (cfg : Config) (s : BadgeStore) (op : BadgeOp) : BadgeStore :=
  (opStates cfg s op).getLastD s

/-- All stores a trace passes through, in order (intermediate states of
each operation included). -/
def statesFrom (cfg : Config) (s : BadgeStore) : List BadgeOp → List BadgeStore
  | [] => []
  | op :: rest => opStates cfg s op ++ statesFrom cfg (opFinal cfg s op) rest

/-- The store at the end of a trace. -/
def runTrace (cfg : Config) (s : BadgeStore) : List BadgeOp → BadgeStore
  | [] => s
  | op :: rest => runTrace cfg (opFinal cfg s op) rest

/-- All environment side conditions of a trace hold. -/
def validTrace (cfg : Config) (s : BadgeStore) : List BadgeOp → Bool
  | [] => true
  | op :: rest => opOk s op && validTrace cfg (opFinal cfg s op) rest

/-- At most one credential record per address is `pending` or `active`
(the records of a store are the objects in its heap). -/
def atMostOnePendingActive (s : BadgeStore) : Prop :=
  ∀ e1 ∈ s.heap, ∀ e2 ∈ s.heap,
    e1.2.address = e2.2.address →
    (e1.2.status = BadgeStatus.pending ∨ e1.2.status = BadgeStatus.active) →
    (e2.2.status = BadgeStatus.pending ∨ e2.2.status = BadgeStatus.active) →
    e1 = e2

instance (s : BadgeStore) : Decidable (atMostOnePendingActive s) := by
  unfold atMostOnePendingActive
  exact inferInstance

/-! ## Lemmas about the `Map` model -/

section MapLemmas

variable {α : Type}

theorem mapSet_nil {k : String} {v : α} :
    mapSet ([] : List (String × α)) k v = [(k, v)] := rfl

theorem mapSet_cons_pos {e : String × α} {m : List (String × α)} {k : String}
    {v : α} (h : e.1 = k) : mapSet (e :: m) k v = (k, v) :: m := by
  simp [mapSet, h]

theorem mapSet_cons_neg {e : String × α} {m : List (String × α)} {k : String}
    {v : α} (h : ¬ e.1 = k) : mapSet (e :: m) k v = e :: mapSet m k v := by
  simp [mapSet, h]

theorem mapGet_nil {k : String} : mapGet ([] : List (String × α)) k = none := rfl

theorem mapGet_cons {e : String × α} {m : List (String × α)} {k : String} :
    mapGet (e :: m) k = if e.1 = k then some e.2 else mapGet m k := by
  by_cases h : e.1 = k
  · simp [mapGet, List.find?_cons_of_pos, h]
  · rw [if_neg h]
    unfold mapGet
    rw [List.find?_cons_of_neg]
    simp [h]

theorem mapGet_mapSet_self {m : List (String × α)} {k : String} {v : α} :
    mapGet (mapSet m k v) k = some v := by
  induction m with
  | nil => simp [mapSet_nil, mapGet_cons]
  | cons e rest ih =>
    by_cases h : e.1 = k
    · rw [mapSet_cons_pos h, mapGet_cons, if_pos rfl]
    · rw [mapSet_cons_neg h, mapGet_cons, if_neg h, ih]

theorem mapGet_mapSet_ne {m : List (String × α)} {k k' : String} {v : α}
    (h : k' ≠ k) : mapGet (mapSet m k v) k' = mapGet m k' := by
  induction m with
  | nil =>
    rw [mapSet_nil, mapGet_cons, mapGet_nil, if_neg (fun hh => h hh.symm)]
  | cons e rest ih =>
    by_cases he : e.1 = k
    · rw [mapSet_cons_pos he, mapGet_cons, mapGet_cons,
        if_neg (fun hh => h hh.symm), if_neg (he ▸ fun hh => h hh.symm)]
    · rw [mapSet_cons_neg he, mapGet_cons, mapGet_cons, ih]

theorem mem_mapSet {m : List (String × α)} {k : String} {v : α}
    {e : String × α} (h : e ∈ mapSet m k v) : e = (k, v) ∨ e ∈ m := by
  induction m with
  | nil => rw [mapSet_nil] at h; simpa using h
  | cons e' rest ih =>
    by_cases he : e'.1 = k
    · rw [mapSet_cons_pos he] at h
      rcases List.mem_cons.mp h with h | h
      · exact Or.inl h
      · exact Or.inr (List.mem_cons_of_mem _ h)
    · rw [mapSet_cons_neg he] at h
      rcases List.mem_cons.mp h with h | h
      · exact Or.inr (h ▸ List.mem_cons_self _ _)
      · rcases ih h with h' | h'
        · exact Or.inl h'
        · exact Or.inr (List.mem_cons_of_mem _ h')

theorem self_mem_mapSet {m : List (String × α)} {k : String} {v : α} :
    (k, v) ∈ mapSet m k v := by
  induction m with
  | nil => rw [mapSet_nil]; exact List.mem_cons_self _ _
  | cons e rest ih =>
    by_cases he : e.1 = k
    · rw [mapSet_cons_pos he]; exact List.mem_cons_self _ _
    · rw [mapSet_cons_neg he]; exact List.mem_cons_of_mem _ ih

theorem mem_mapSet_of_ne {m : List (String × α)} {k : String} {v : α}
    {e : String × α} (h : e ∈ m) (hne : e.1 ≠ k) : e ∈ mapSet m k v := by
  induction m with
  | nil => simp at h
  | cons e' rest ih =>
    by_cases he : e'.1 = k
    · rw [mapSet_cons_pos he]
      rcases List.mem_cons.mp h with h | h
      · exact absurd (h ▸ he) hne
      · exact List.mem_cons_of_mem _ h
    · rw [mapSet_cons_neg he]
      rcases List.mem_cons.mp h with h | h
      · exact h ▸ List.mem_cons_self _ _
      · exact List.mem_cons_of_mem _ (ih h)

theorem keys_nodup_mapSet {m : List (String × α)} {k : String} {v : α}
    (h : (m.map Prod.fst).Nodup) :
    ((mapSet m k v).map Prod.fst).Nodup := by
  induction m with
  | nil => simp [mapSet_nil]
  | cons e rest ih =>
    simp only [List.map_cons, List.nodup_cons] at h
    by_cases he : e.1 = k
    · rw [mapSet_cons_pos he]
      simp only [List.map_cons, List.nodup_cons]
      exact ⟨he ▸ h.1, h.2⟩
    · rw [mapSet_cons_neg he]
      simp only [List.map_cons, List.nodup_cons]
      refine ⟨fun hc => ?_, ih h.2⟩
      rcases List.mem_map.mp hc with ⟨e', he', hfst⟩
      rcases mem_mapSet he' with h' | h'
      · exact he (by rw [← hfst, h'])
      · exact h.1 (List.mem_map.mpr ⟨e', h', hfst⟩)

theorem mem_mapSet_nodup {m : List (String × α)} {k : String} {v : α}
    {e : String × α} (hnd : (m.map Prod.fst).Nodup)
    (h : e ∈ mapSet m k v) : e = (k, v) ∨ (e ∈ m ∧ e.1 ≠ k) := by
  induction m with
  | nil =>
    rw [mapSet_nil] at h
    exact Or.inl (by simpa using h)
  | cons e' rest ih =>
    simp only [List.map_cons, List.nodup_cons] at hnd
    by_cases he : e'.1 = k
    · rw [mapSet_cons_pos he] at h
      rcases List.mem_cons.mp h with h | h
      · exact Or.inl h
      · refine Or.inr ⟨List.mem_cons_of_mem _ h, fun hk => ?_⟩
        exact hnd.1 (he ▸ hk ▸ List.mem_map.mpr ⟨e, h, rfl⟩)
    · rw [mapSet_cons_neg he] at h
      rcases List.mem_cons.mp h with h | h
      · exact Or.inr ⟨h ▸ List.mem_cons_self _ _, h ▸ he⟩
      · rcases ih hnd.2 h with h' | h'
        · exact Or.inl h'
        · exact Or.inr ⟨List.mem_cons_of_mem _ h'.1, h'.2⟩

theorem mapGet_mem {m : List (String × α)} {k : String} {v : α}
    (h : mapGet m k = some v) : (k, v) ∈ m := by
  induction m with
  | nil => simp [mapGet_nil] at h
  | cons e rest ih =>
    rw [mapGet_cons] at h
    by_cases he : e.1 = k
    · rw [if_pos he] at h
      obtain rfl := Option.some.inj h
      have : e = (k, e.2) := Prod.ext he rfl
      exact this ▸ List.mem_cons_self _ _
    · rw [if_neg he] at h
      exact List.mem_cons_of_mem _ (ih h)

theorem mapGet_eq_some_of_mem_nodup {m : List (String × α)} {k : String}
    {v : α} (hnd : (m.map Prod.fst).Nodup) (h : (k, v) ∈ m) :
    mapGet m k = some v := by
  induction m with
  | nil => simp at h
  | cons e rest ih =>
    simp only [List.map_cons, List.nodup_cons] at hnd
    rw [mapGet_cons]
    rcases List.mem_cons.mp h with h | h
    · rw [if_pos (by rw [← h])]
      rw [← h]
    · have hne : e.1 ≠ k := by
        intro hk
        exact hnd.1 (hk ▸ List.mem_map.mpr ⟨(k, v), h, rfl⟩)
      rw [if_neg hne]
      exact ih hnd.2 h

theorem mapGet_eq_none_not_mem {m : List (String × α)} {k : String}
    (h : mapGet m k = none) : ∀ v, (k, v) ∉ m := by
  intro v hv
  induction m with
  | nil => simp at hv
  | cons e rest ih =>
    rw [mapGet_cons] at h
    by_cases he : e.1 = k
    · rw [if_pos he] at h; exact Option.noConfusion h
    · rw [if_neg he] at h
      rcases List.mem_cons.mp hv with h' | h'
      · exact he (by rw [← h'])
      · exact ih h h'

theorem mem_mapValues {m : List (String × α)} {v : α} :
    v ∈ mapValues m ↔ ∃ e ∈ m, e.2 = v := by
  simp [mapValues, List.mem_map]

theorem mapSet_mapSet_self {m : List (String × α)} {k : String} {v v' : α} :
    mapSet (mapSet m k v) k v' = mapSet m k v' := by
  induction m with
  | nil => simp [mapSet_nil, mapSet_cons_pos]
  | cons e rest ih =>
    by_cases he : e.1 = k
    · rw [mapSet_cons_pos he, mapSet_cons_pos rfl, mapSet_cons_pos he]
    · rw [mapSet_cons_neg he, mapSet_cons_neg he, mapSet_cons_neg he, ih]

theorem mapSet_eq_of_mapGet {m : List (String × α)} {k : String} {v : α}
    (h : mapGet m k = some v) : mapSet m k v = m := by
  induction m with
  | nil => simp [mapGet_nil] at h
  | cons e rest ih =>
    rw [mapGet_cons] at h
    by_cases he : e.1 = k
    · rw [if_pos he] at h
      obtain rfl := Option.some.inj h
      rw [mapSet_cons_pos he]
      rw [show (k, e.2) = e from Prod.ext he.symm rfl]
    · rw [if_neg he] at h
      rw [mapSet_cons_neg he, ih h]

end MapLemmas

/-! ## String and decimal-numeral lemmas -/

/-- Decimal digit characters of `n`, most significant first (proof-side
reference implementation of `Nat.toDigits 10`). -/
def decimalDigits (n : Nat) : List Char :=
  if n < 10 then [Nat.digitChar n]
  else decimalDigits (n / 10) ++ [Nat.digitChar (n % 10)]
decreasing_by exact Nat.div_lt_self (by omega) (by omega)

theorem toDigitsCore_succ (b f n : Nat) (ds : List Char) :
    Nat.toDigitsCore b (f + 1) n ds =
      if n / b = 0 then Nat.digitChar (n % b) :: ds
      else Nat.toDigitsCore b f (n / b) (Nat.digitChar (n % b) :: ds) := rfl

theorem toDigitsCore_eq_decimalDigits :
    ∀ (f n : Nat) (ds : List Char), n < 10 ^ (f + 1) →
      Nat.toDigitsCore 10 (f + 1) n ds = decimalDigits n ++ ds := by
  intro f
  induction f with
  | zero =>
    intro n ds hn0
    have hn : n < 10 := by simpa using hn0
    have h10 : n / 10 = 0 := Nat.div_eq_of_lt hn
    have hm : n % 10 = n := Nat.mod_eq_of_lt hn
    rw [toDigitsCore_succ, if_pos h10, decimalDigits, if_pos hn, hm]
    simp
  | succ f ih =>
    intro n ds hn
    by_cases h10 : n / 10 = 0
    · have hlt : n < 10 := by omega
      have hm : n % 10 = n := Nat.mod_eq_of_lt hlt
      rw [toDigitsCore_succ, if_pos h10, decimalDigits, if_pos hlt, hm]
      simp
    · have hge : ¬ n < 10 := by
        intro hc
        exact h10 (Nat.div_eq_of_lt hc)
      have hdiv : n / 10 < 10 ^ (f + 1) := by
        apply (Nat.div_lt_iff_lt_mul (by omega : 0 < 10)).mpr
        calc n < 10 ^ (f + 1 + 1) := hn
        _ = 10 ^ (f + 1) * 10 := by ring
      rw [toDigitsCore_succ, if_neg h10, ih (n / 10) _ hdiv]
      conv_rhs => rw [decimalDigits]
      rw [if_neg hge]
      simp [List.append_assoc]

theorem toDigits_eq_decimalDigits (n : Nat) :
    Nat.toDigits 10 n = decimalDigits n := by
  have hn : n < 10 ^ (n + 1) := by
    calc n < 10 ^ n := Nat.lt_pow_self (by omega) n
    _ ≤ 10 ^ (n + 1) := Nat.pow_le_pow_right (by omega) (by omega)
  have := toDigitsCore_eq_decimalDigits n n [] hn
  simpa [Nat.toDigits] using this

/-- Proof-side decimal parser. -/
def parseDecimal (l : List Char) : Nat :=
  l.foldl (fun a c => a * 10 + (c.toNat - 48)) 0

theorem digitChar_toNat_sub {m : Nat} (h : m < 10) :
    (Nat.digitChar m).toNat - 48 = m := by
  interval_cases m <;> decide

theorem parseDecimal_decimalDigits (n : Nat) :
    parseDecimal (decimalDigits n) = n := by
  induction n using decimalDigits.induct with
  | case1 n h =>
    rw [decimalDigits, if_pos h]
    simp [parseDecimal, digitChar_toNat_sub h]
  | case2 n h ih =>
    rw [decimalDigits, if_neg h]
    unfold parseDecimal at ih ⊢
    rw [List.foldl_append]
    simp only [List.foldl_cons, List.foldl_nil, ih]
    rw [digitChar_toNat_sub (Nat.mod_lt n (by omega))]
    omega

theorem natRepr_injective : Function.Injective Nat.repr := by
  intro a b h
  have hl : Nat.toDigits 10 a = Nat.toDigits 10 b := by
    simp only [Nat.repr] at h
    exact List.asString_inj.mp h
  rw [toDigits_eq_decimalDigits, toDigits_eq_decimalDigits] at hl
  have h2 := congrArg parseDecimal hl
  rwa [parseDecimal_decimalDigits, parseDecimal_decimalDigits] at h2

theorem natToString_injective : Function.Injective (fun n : Nat => toString n) :=
  natRepr_injective

theorem str_append_right_cancel {a b c : String} (h : a ++ c = b ++ c) :
    a = b := by
  apply String.ext
  have hd := congrArg String.data h
  rw [String.data_append, String.data_append] at hd
  exact List.append_cancel_right hd

theorem str_append_left_cancel {a b c : String} (h : a ++ b = a ++ c) :
    b = c := by
  apply String.ext
  have hd := congrArg String.data h
  rw [String.data_append, String.data_append] at hd
  exact List.append_cancel_left hd

theorem proofHashPreimage_data (i : ProofHashInput) :
    (proofHashPreimage i).data =
      i.provider.data ++ '|' :: (i.address.data ++ '|' ::
        (i.verificationData.data ++ '|' :: (toString i.timestamp).data)) := by
  simp [proofHashPreimage, String.intercalate, String.intercalate.go,
    String.data_append, List.append_assoc]

theorem nullifierPreimage_data (p : Nat) (a n : String) :
    (nullifierPreimage p a n).data =
      (toString p).data ++ '|' :: (a.data ++ '|' :: n.data) := by
  simp [nullifierPreimage, String.data_append, List.append_assoc]

theorem addrKey_data (a : String) :
    (addrKey a).data = 'a' :: 'd' :: 'd' :: 'r' :: ':' :: a.data := by
  simp [addrKey, String.data_append]

theorem addrKey_inj {a b : String} (h : addrKey a = addrKey b) : a = b := by
  apply String.ext
  have hd := congrArg String.data h
  rw [addrKey_data, addrKey_data] at hd
  simpa using hd

theorem isAddrKey_addrKey (a : String) : isAddrKey (addrKey a) = true := by
  rw [isAddrKey, addrKey_data]
  simp

theorem ne_addrKey_of_not_isAddrKey {k : String} (h : isAddrKey k = false)
    (a : String) : k ≠ addrKey a := by
  intro hk
  rw [hk, isAddrKey_addrKey] at h
  exact Bool.noConfusion h

/-! ## Commitment-engine lemmas

The hash stand-in `h` is a parameter; collision resistance of SHA-256 is
modelled as injectivity of `h`. -/

theorem generateProofHash_preimage_data {h : String → String}
    (hinj : Function.Injective h) {i1 i2 : ProofHashInput}
    (he : generateProofHash h i1 = generateProofHash h i2) :
    (proofHashPreimage i1).data = (proofHashPreimage i2).data := by
  unfold generateProofHash at he
  exact congrArg String.data (hinj (str_append_right_cancel he))

theorem createVoteNullifier_preimage_data {h : String → String}
    (hinj : Function.Injective h) {p1 p2 : Nat} {a1 a2 n1 n2 : String}
    (he : createVoteNullifier h p1 a1 n1 = createVoteNullifier h p2 a2 n2) :
    (nullifierPreimage p1 a1 n1).data = (nullifierPreimage p2 a2 n2).data := by
  unfold createVoteNullifier bhp256Hash at he
  exact congrArg String.data (hinj (str_append_right_cancel he))

theorem generateProofHash_ne_of_provider_ne {h : String → String}
    (hinj : Function.Injective h) {i1 i2 : ProofHashInput}
    (ha : i1.address = i2.address)
    (hv : i1.verificationData = i2.verificationData)
    (ht : i1.timestamp = i2.timestamp) (hp : i1.provider ≠ i2.provider) :
    generateProofHash h i1 ≠ generateProofHash h i2 := by
  intro he
  have hd := generateProofHash_preimage_data hinj he
  rw [proofHashPreimage_data, proofHashPreimage_data, ha, hv, ht] at hd
  exact hp (String.ext (List.append_cancel_right hd))

theorem generateProofHash_ne_of_address_ne {h : String → String}
    (hinj : Function.Injective h) {i1 i2 : ProofHashInput}
    (hp : i1.provider = i2.provider)
    (hv : i1.verificationData = i2.verificationData)
    (ht : i1.timestamp = i2.timestamp) (ha : i1.address ≠ i2.address) :
    generateProofHash h i1 ≠ generateProofHash h i2 := by
  intro he
  have hd := generateProofHash_preimage_data hinj he
  rw [proofHashPreimage_data, proofHashPreimage_data, hp, hv, ht] at hd
  have h1 := List.append_cancel_left hd
  simp only [List.cons.injEq, true_and] at h1
  refine ha (String.ext ?_)
  rw [show ∀ x : String, x.data ++ '|' :: (i2.verificationData.data
      ++ '|' :: (toString i2.timestamp).data)
    = x.data ++ ('|' :: (i2.verificationData.data
      ++ '|' :: (toString i2.timestamp).data)) from fun x => rfl] at h1
  exact List.append_cancel_right h1

theorem generateProofHash_ne_of_verificationData_ne {h : String → String}
    (hinj : Function.Injective h) {i1 i2 : ProofHashInput}
    (hp : i1.provider = i2.provider) (ha : i1.address = i2.address)
    (ht : i1.timestamp = i2.timestamp)
    (hv : i1.verificationData ≠ i2.verificationData) :
    generateProofHash h i1 ≠ generateProofHash h i2 := by
  intro he
  have hd := generateProofHash_preimage_data hinj he
  rw [proofHashPreimage_data, proofHashPreimage_data, hp, ha, ht] at hd
  have h1 := List.append_cancel_left hd
  simp only [List.cons.injEq, true_and] at h1
  have h2 := List.append_cancel_left h1
  simp only [List.cons.injEq, true_and] at h2
  exact hv (String.ext (List.append_cancel_right h2))

theorem generateProofHash_ne_of_timestamp_ne {h : String → String}
    (hinj : Function.Injective h) {i1 i2 : ProofHashInput}
    (hp : i1.provider = i2.provider) (ha : i1.address = i2.address)
    (hv : i1.verificationData = i2.verificationData)
    (ht : i1.timestamp ≠ i2.timestamp) :
    generateProofHash h i1 ≠ generateProofHash h i2 := by
  intro he
  have hd := generateProofHash_preimage_data hinj he
  rw [proofHashPreimage_data, proofHashPreimage_data, hp, ha, hv] at hd
  have h1 := List.append_cancel_left hd
  simp only [List.cons.injEq, true_and] at h1
  have h2 := List.append_cancel_left h1
  simp only [List.cons.injEq, true_and] at h2
  have h3 := List.append_cancel_left h2
  simp only [List.cons.injEq, true_and] at h3
  exact ht (natToString_injective (String.ext h3))

theorem createVoteNullifier_ne_of_proposal_ne {h : String → String}
    (hinj : Function.Injective h) {p1 p2 : Nat} {a n : String}
    (hp : p1 ≠ p2) :
    createVoteNullifier h p1 a n ≠ createVoteNullifier h p2 a n := by
  intro he
  have hd := createVoteNullifier_preimage_data hinj he
  rw [nullifierPreimage_data, nullifierPreimage_data] at hd
  exact hp (natToString_injective (String.ext (List.append_cancel_right hd)))

theorem createVoteNullifier_ne_of_address_ne {h : String → String}
    (hinj : Function.Injective h) {p : Nat} {a1 a2 n : String}
    (ha : a1 ≠ a2) :
    createVoteNullifier h p a1 n ≠ createVoteNullifier h p a2 n := by
  intro he
  have hd := createVoteNullifier_preimage_data hinj he
  rw [nullifierPreimage_data, nullifierPreimage_data] at hd
  have h1 := List.append_cancel_left hd
  simp only [List.cons.injEq, true_and] at h1
  refine ha (String.ext ?_)
  rw [show ∀ x : String, x.data ++ '|' :: n.data
    = x.data ++ ('|' :: n.data) from fun x => rfl] at h1
  exact List.append_cancel_right h1

theorem createVoteNullifier_ne_of_nonce_ne {h : String → String}
    (hinj : Function.Injective h) {p : Nat} {a n1 n2 : String}
    (hn : n1 ≠ n2) :
    createVoteNullifier h p a n1 ≠ createVoteNullifier h p a n2 := by
  intro he
  have hd := createVoteNullifier_preimage_data hinj he
  rw [nullifierPreimage_data, nullifierPreimage_data] at hd
  have h1 := List.append_cancel_left hd
  simp only [List.cons.injEq, true_and] at h1
  have h2 := List.append_cancel_left h1
  simp only [List.cons.injEq, true_and] at h2
  exact hn (String.ext h2)

/-! ## Claims about the commitment engine (C6, C7) -/

/-- **C6** (counterexample).  The claim states that the vote nullifier is
a function of the proposal id and the credential nonce only — in
particular that the voter's address has no influence on the token.  In
the code (`createVoteNullifier`) the hashed commitment input is
`` `${proposalId}|${voterAddress}|${badgeNonce}` ``, so the address does
influence the result: with equal proposal id and nonce but different
voter addresses, both the hash preimages and (for the injective hash
instance exhibited here) the returned tokens differ. -/
theorem createVoteNullifier_address_influence_counterexample :
    createVoteNullifier (fun s => s) 1 "aleo1voterone" "noncefield"
        ≠ createVoteNullifier (fun s => s) 1 "aleo1votertwo" "noncefield"
      ∧ nullifierPreimage 1 "aleo1voterone" "noncefield"
        ≠ nullifierPreimage 1 "aleo1votertwo" "noncefield" := by
  exact ⟨by decide, by decide⟩

/-- **C6** (amended).  `createVoteNullifier` is a deterministic function
of all three inputs — proposal id, voter address and badge nonce: equal
inputs give equal tokens, but the voter's address *does* influence the
nullifier: for a collision-free hash, invocations differing only in the
voter address return different tokens. -/
theorem createVoteNullifier_deterministic_in_all_inputs
    (h : String → String) (hinj : Function.Injective h) :
    (∀ (p p' : Nat) (a a' n n' : String), p = p' → a = a' → n = n' →
      createVoteNullifier h p a n = createVoteNullifier h p' a' n')
    ∧ (∀ (p : Nat) (a1 a2 n : String), a1 ≠ a2 →
      createVoteNullifier h p a1 n ≠ createVoteNullifier h p a2 n) := by
  constructor
  · rintro p p' a a' n n' rfl rfl rfl
    rfl
  · intro p a1 a2 n ha
    exact createVoteNullifier_ne_of_address_ne hinj ha

/-- Witness for the amended C6 theorem at concrete inputs. -/
theorem createVoteNullifier_deterministic_in_all_inputs_witness :
    createVoteNullifier (fun s => s) 7 "addrx" "n0"
      ≠ createVoteNullifier (fun s => s) 7 "addry" "n0" :=
  (createVoteNullifier_deterministic_in_all_inputs (fun s => s)
    Function.injective_id).2 7 "addrx" "addry" "n0" (by decide)

/-- **C7** (confirmed, with SHA-256 collision resistance modelled as
injectivity of the hash parameter).  `generateProofHash` and
`createVoteNullifier` are deterministic — equal input fields give
identical tokens — and input-sensitive: changing any single input field
(the other fields kept equal) changes the returned token. -/
theorem commitment_determinism_and_sensitivity
    (h : String → String) (hinj : Function.Injective h) :
    (∀ i1 i2 : ProofHashInput, i1 = i2 →
      generateProofHash h i1 = generateProofHash h i2)
    ∧ (∀ (p p' : Nat) (a a' n n' : String), p = p' → a = a' → n = n' →
      createVoteNullifier h p a n = createVoteNullifier h p' a' n')
    ∧ (∀ i1 i2 : ProofHashInput, i1.address = i2.address →
      i1.verificationData = i2.verificationData →
      i1.timestamp = i2.timestamp → i1.provider ≠ i2.provider →
      generateProofHash h i1 ≠ generateProofHash h i2)
    ∧ (∀ i1 i2 : ProofHashInput, i1.provider = i2.provider →
      i1.verificationData = i2.verificationData →
      i1.timestamp = i2.timestamp → i1.address ≠ i2.address →
      generateProofHash h i1 ≠ generateProofHash h i2)
    ∧ (∀ i1 i2 : ProofHashInput, i1.provider = i2.provider →
      i1.address = i2.address → i1.timestamp = i2.timestamp →
      i1.verificationData ≠ i2.verificationData →
      generateProofHash h i1 ≠ generateProofHash h i2)
    ∧ (∀ i1 i2 : ProofHashInput, i1.provider = i2.provider →
      i1.address = i2.address →
      i1.verificationData = i2.verificationData →
      i1.timestamp ≠ i2.timestamp →
      generateProofHash h i1 ≠ generateProofHash h i2)
    ∧ (∀ (p1 p2 : Nat) (a n : String), p1 ≠ p2 →
      createVoteNullifier h p1 a n ≠ createVoteNullifier h p2 a n)
    ∧ (∀ (p : Nat) (a1 a2 n : String), a1 ≠ a2 →
      createVoteNullifier h p a1 n ≠ createVoteNullifier h p a2 n)
    ∧ (∀ (p : Nat) (a n1 n2 : String), n1 ≠ n2 →
      createVoteNullifier h p a n1 ≠ createVoteNullifier h p a n2) := by
  refine ⟨?_, ?_, ?_, ?_, ?_, ?_, ?_, ?_, ?_⟩
  · rintro i1 i2 rfl
    rfl
  · rintro p p' a a' n n' rfl rfl rfl
    rfl
  · intro i1 i2 ha hv ht hp
    exact generateProofHash_ne_of_provider_ne hinj ha hv ht hp
  · intro i1 i2 hp hv ht ha
    exact generateProofHash_ne_of_address_ne hinj hp hv ht ha
  · intro i1 i2 hp ha ht hv
    exact generateProofHash_ne_of_verificationData_ne hinj hp ha ht hv
  · intro i1 i2 hp ha hv ht
    exact generateProofHash_ne_of_timestamp_ne hinj hp ha hv ht
  · intro p1 p2 a n hp
    exact createVoteNullifier_ne_of_proposal_ne hinj hp
  · intro p a1 a2 n ha
    exact createVoteNullifier_ne_of_address_ne hinj ha
  · intro p a n1 n2 hn
    exact createVoteNullifier_ne_of_nonce_ne hinj hn

/-- Witness for the C7 theorem at concrete inputs: a changed timestamp
and a changed nonce each change the token (hash instantiated with an
injective function). -/
theorem commitment_determinism_and_sensitivity_witness :
    generateProofHash (fun s => s) ⟨"prov", "addr", "vd", 11⟩
      ≠ generateProofHash (fun s => s) ⟨"prov", "addr", "vd", 12⟩
    ∧ createVoteNullifier (fun s => s) 3 "addr" "n1"
      ≠ createVoteNullifier (fun s => s) 3 "addr" "n2" := by
  have H := commitment_determinism_and_sensitivity (fun s => s)
    Function.injective_id
  exact ⟨H.2.2.2.2.2.1 ⟨"prov", "addr", "vd", 11⟩ ⟨"prov", "addr", "vd", 12⟩
      rfl rfl rfl (by decide),
    H.2.2.2.2.2.2.2.2 3 "addr" "n1" "n2" (by decide)⟩

/-! ## Verification-registry claims (C3) -/

theorem findExistingVerification_eq_of_unique {vs : VerificationStore}
    {now : Nat} {address : String} {r : VerificationRecord}
    (hmem : r ∈ mapValues vs) (haddr : r.address = address)
    (hver : r.status = VerificationStatus.verified) (hexp : now < r.expiresAt)
    (huniq : ∀ v ∈ mapValues vs, v.address = address →
      v.status = VerificationStatus.verified → now < v.expiresAt → v = r) :
    findExistingVerification vs now address = some r := by
  unfold findExistingVerification
  cases hfind : (mapValues vs).find?
      (fun v => v.address == address
        && v.status == VerificationStatus.verified
        && decide (now < v.expiresAt)) with
  | none =>
    exfalso
    have hnone := List.find?_eq_none.mp hfind r hmem
    simp [haddr, hver, hexp] at hnone
  | some v =>
    have hv := List.find?_some hfind
    have hmemv := List.mem_of_find?_eq_some hfind
    simp only [Bool.and_eq_true, beq_iff_eq, decide_eq_true_eq] at hv
    exact congrArg some (huniq v hmemv hv.1.1 hv.1.2 hv.2)

/-- **C3** (confirmed).  For every address and every provider endpoint
(`proof-of-humanity`, `worldcoin`, and also `liveness`), if a
`verified` verification record whose `expiresAt` lies in the future
already exists for the address (and it is the only such record, as the
registry's uniqueness invariant guarantees), then a new verification
submission returns that record's `verification_id` and `proof_hash`
unchanged and leaves the verification store untouched — no new record
is inserted. -/
theorem verification_resubmission_idempotent
    (cfg : Config) (h : String → String) (vs : VerificationStore) (now : Nat)
    (address : String) (r : VerificationRecord)
    (hmem : r ∈ mapValues vs) (haddr : r.address = address)
    (hver : r.status = VerificationStatus.verified) (hexp : now < r.expiresAt)
    (huniq : ∀ v ∈ mapValues vs, v.address = address →
      v.status = VerificationStatus.verified → now < v.expiresAt → v = r)
    (haleo : isValidAleoAddress address = true) :
    (∀ (pohResult : Option (Bool × Nat)) (newId : String),
      submitPoHVerification cfg h vs now address true pohResult newId
        = (.ok { verification_id := r.id, status := .verified,
                 proof_hash := r.proofHash,
                 expires_at := r.expiresAt / 1000,
                 provider := "proof_of_humanity",
                 message := "Already verified" }, vs))
    ∧ (∀ (worldcoinResult : Option (Bool × String)) (newId : String),
      submitWorldcoinVerification cfg h vs now address true worldcoinResult
          newId
        = (.ok { verification_id := r.id, status := .verified,
                 proof_hash := r.proofHash,
                 expires_at := r.expiresAt / 1000,
                 provider := "worldcoin",
                 message := "Already verified" }, vs))
    ∧ (∀ (proof_hash newId : String), 16 ≤ proof_hash.length →
      submitLivenessVerification cfg h vs now address proof_hash newId
        = (.ok { verification_id := r.id, status := .verified,
                 proof_hash := r.proofHash,
                 expires_at := r.expiresAt / 1000,
                 provider := "liveness",
                 message := "Already verified" }, vs)) := by
  have hfound := findExistingVerification_eq_of_unique hmem haddr hver hexp
    huniq
  refine ⟨?_, ?_, ?_⟩
  · intro pohResult newId
    unfold submitPoHVerification
    rw [haleo]
    simp only [Bool.and_true, Bool.not_true, Bool.false_eq_true, if_false,
      hfound]
  · intro worldcoinResult newId
    unfold submitWorldcoinVerification
    rw [haleo]
    simp only [Bool.and_true, Bool.not_true, Bool.false_eq_true, if_false,
      hfound]
  · intro proof_hash newId hlen
    unfold submitLivenessVerification
    rw [haleo]
    simp only [hlen, decide_eq_true_eq, decide_True, Bool.and_true,
      Bool.not_true, Bool.false_eq_true, if_false, hfound]

/-- Witness for C3 at a concrete store holding one verified, unexpired
record. -/
theorem verification_resubmission_idempotent_witness :
    (submitPoHVerification
        ⟨true, "issuer", 31536000⟩ (fun s => s)
        [("11111111-2222-3333-4444-555555555555",
          { id := "11111111-2222-3333-4444-555555555555",
            address := "aleo1qqqqqqqqqqqqqqqqqqqqqqqqqqqqqqqqqqqqqqqqqqqqqqqqqqqqqqqqqq",
            provider := "proof_of_humanity",
            status := VerificationStatus.verified, proofHash := "ph0field",
            createdAt := 1000, expiresAt := 999999, providerData := "d" })]
        5000
        "aleo1qqqqqqqqqqqqqqqqqqqqqqqqqqqqqqqqqqqqqqqqqqqqqqqqqqqqqqqqqq"
        true (some (true, 42)) "99999999-8888-7777-6666-555555555555").1
      = Outcome.ok { verification_id := "11111111-2222-3333-4444-555555555555",
                     status := .verified, proof_hash := "ph0field",
                     expires_at := 999, provider := "proof_of_humanity",
                     message := "Already verified" } := by
  have H := verification_resubmission_idempotent
    ⟨true, "issuer", 31536000⟩ (fun s => s)
    [("11111111-2222-3333-4444-555555555555",
      { id := "11111111-2222-3333-4444-555555555555",
        address := "aleo1qqqqqqqqqqqqqqqqqqqqqqqqqqqqqqqqqqqqqqqqqqqqqqqqqqqqqqqqqq",
        provider := "proof_of_humanity",
        status := VerificationStatus.verified, proofHash := "ph0field",
        createdAt := 1000, expiresAt := 999999, providerData := "d" })]
    5000
    "aleo1qqqqqqqqqqqqqqqqqqqqqqqqqqqqqqqqqqqqqqqqqqqqqqqqqqqqqqqqqq"
    { id := "11111111-2222-3333-4444-555555555555",
      address := "aleo1qqqqqqqqqqqqqqqqqqqqqqqqqqqqqqqqqqqqqqqqqqqqqqqqqqqqqqqqqq",
      provider := "proof_of_humanity",
      status := VerificationStatus.verified, proofHash := "ph0field",
      createdAt := 1000, expiresAt := 999999, providerData := "d" }
    (by decide) (by decide) (by decide) (by decide) (by decide) (by decide)
  rw [H.1 (some (true, 42)) "99999999-8888-7777-6666-555555555555"]
  rfl

/-! ## Credential-registry claims: operation level (C5, C8, C4, C9) -/

/-- **C5** (confirmed).  On a schema-valid request that passes the
existing-badge check, `requestIssuance` fails with NotFound (404) when
the given `verification_id` is not in the verification store, and with
Validation (400) when the referenced record's status is not `verified`,
or its address differs from the request address, or its `expiresAt` is in
the past; in each case no store state is written. -/
theorem requestIssuance_verification_errors
    (cfg : Config) (vs : VerificationStore) (s : BadgeStore) (now : Nat)
    (vid addr badgeId nonce : String) (chain : ChainResult)
    (hvid : isValidUuid vid = true) (haddr : isValidAleoAddress addr = true)
    (hnoactive : findActiveBadge s addr = none) :
    (getVerificationById vs vid = none →
      requestIssuance cfg vs s now vid addr badgeId nonce chain
          = (.err (notFoundError "Verification"), [])
        ∧ errorHandler (notFoundError "Verification")
          = (404, "NOT_FOUND", "Verification not found"))
    ∧ (∀ v, getVerificationById vs vid = some v →
      (v.status ≠ VerificationStatus.verified ∨ v.address ≠ addr
        ∨ v.expiresAt < now) →
      ∃ msg, requestIssuance cfg vs s now vid addr badgeId nonce chain
          = (.err (validationError msg), [])
        ∧ errorHandler (validationError msg)
          = (400, "VALIDATION_ERROR", msg)) := by
  constructor
  · intro hv
    refine ⟨?_, rfl⟩
    simp [requestIssuance, hvid, haddr, hnoactive, hv]
  · intro v hv hbad
    by_cases hst : v.status = VerificationStatus.verified
    · by_cases hadr : v.address = addr
      · have hexp : v.expiresAt < now := by
          rcases hbad with hbad | hbad | hbad
          · exact absurd hst hbad
          · exact absurd hadr hbad
          · exact hbad
        refine ⟨"Verification has expired", ?_, rfl⟩
        simp [requestIssuance, hvid, haddr, hnoactive, hv, hst, hadr, hexp]
      · refine ⟨"Address mismatch: verification was for a different address",
          ?_, rfl⟩
        simp [requestIssuance, hvid, haddr, hnoactive, hv, hst, hadr]
    · refine ⟨"Cannot issue badge: verification status is \x22"
          ++ verificationStatusStr v.status ++ "\x22", ?_, rfl⟩
      simp [requestIssuance, hvid, haddr, hnoactive, hv, hst]

/-- Witness for C5: on an empty verification store, issuance with an
unknown verification id fails NotFound and writes nothing. -/
theorem requestIssuance_verification_errors_witness :
    requestIssuance ⟨true, "issuer", 31536000⟩ [] BadgeStore.empty 5000
        "12345678-1234-1234-1234-123456789abc"
        "aleo1qqqqqqqqqqqqqqqqqqqqqqqqqqqqqqqqqqqqqqqqqqqqqqqqqqqqqqqqqq"
        "b1" "n1" ⟨true, some "tx", none⟩
      = (.err (notFoundError "Verification"), []) :=
  ((requestIssuance_verification_errors ⟨true, "issuer", 31536000⟩ []
      BadgeStore.empty 5000 "12345678-1234-1234-1234-123456789abc"
      "aleo1qqqqqqqqqqqqqqqqqqqqqqqqqqqqqqqqqqqqqqqqqqqqqqqqqqqqqqqqqq"
      "b1" "n1" ⟨true, some "tx", none⟩ (by decide) (by decide)
      (by decide)).1 (by decide)).1

/-! ### Concrete example inputs used by witnesses and counterexamples -/

/-- A well-formed Aleo address (63 characters). -/
def exAddr : String :=
  "aleo1qqqqqqqqqqqqqqqqqqqqqqqqqqqqqqqqqqqqqqqqqqqqqqqqqqqqqqqqqq"

/-- A second well-formed Aleo address. -/
def exAddr2 : String :=
  "aleo1rrrrrrrrrrrrrrrrrrrrrrrrrrrrrrrrrrrrrrrrrrrrrrrrrrrrrrrrrr"

/-- A well-formed verification uuid. -/
def exVid : String := "12345678-1234-1234-1234-123456789abc"

/-- A verified, far-future-expiring verification record for `exAddr`. -/
def exVerification : VerificationRecord :=
  { id := exVid, address := exAddr, provider := "proof_of_humanity",
    status := .verified, proofHash := "phfield", createdAt := 1000,
    expiresAt := 1000000000000, providerData := "d" }

/-- A verification store holding just `exVerification`. -/
def exVs : VerificationStore := [(exVid, exVerification)]

/-- Demo-mode configuration. -/
def exCfgDemo : Config := ⟨true, "issuerAddr", 31536000⟩

/-- Production (on-chain) configuration. -/
def exCfgProd : Config := ⟨false, "issuerAddr", 31536000⟩

/-- The store after a successful demo-mode issuance for `exAddr` at
clock 5000 (badge `"badge-1"` is `active`, expiring at 31536005000). -/
def exStoreActive : BadgeStore :=
  requestIssuanceFinal exCfgDemo exVs BadgeStore.empty 5000 exVid exAddr
    "badge-1" "nonce-1" ⟨true, some "tx1", none⟩

/-- **C8** (counterexample).  The claim says a successful renewal sets a
new, *later* `expiresAt`.  Renewing `exAddr`'s badge at the same clock
value (5000) at which it was issued succeeds, but writes an `expiresAt`
equal to the previous one — not later. -/
theorem renewBadge_same_instant_counterexample :
    (renewBadge exCfgDemo exStoreActive 5000 exAddr).1
        = Outcome.ok { renewed := true, new_expires_at := 31536005,
                       message := "Badge successfully renewed" }
      ∧ (getBadgeByAddress exStoreActive exAddr).map (fun b => b.expiresAt)
        = some 31536005000
      ∧ (getBadgeByAddress (renewBadge exCfgDemo exStoreActive 5000
          exAddr).2 exAddr).map (fun b => b.expiresAt)
        = some 31536005000 := by
  exact ⟨by decide, by decide, by decide⟩

/-- **C8** (amended).  `renew` fails NotFound (404) when no badge exists
for the address, fails Validation (400) when the record's status is
`revoked`, and otherwise succeeds, setting `expiresAt` to
`now + validity` and status to `active` while leaving every other field
(id, nonce, proofHash, issuer, createdAt, address) unchanged.  The new
expiry is never earlier than the previous one when the clock is
monotone, and is strictly later exactly when the clock advanced since
the previous expiry was computed (renewing within the same millisecond
reproduces the same expiry). -/
theorem renewBadge_spec (cfg : Config) (s : BadgeStore) (now : Nat)
    (address : String) (haddr : isValidAleoAddress address = true) :
    (badgeStoreEntry s (addrKey address) = none →
      renewBadge cfg s now address = (.err (notFoundError "Badge"), s))
    ∧ (∀ oid b, badgeStoreEntry s (addrKey address) = some (oid, b) →
      b.status = BadgeStatus.revoked →
      renewBadge cfg s now address
        = (.err (validationError "Cannot renew a revoked badge"), s))
    ∧ (∀ oid b, badgeStoreEntry s (addrKey address) = some (oid, b) →
      b.status ≠ BadgeStatus.revoked →
      (renewBadge cfg s now address).1
          = .ok { renewed := true,
                  new_expires_at :=
                    (now + cfg.defaultValiditySeconds * 1000) / 1000,
                  message := "Badge successfully renewed" }
        ∧ mapGet (renewBadge cfg s now address).2.heap oid
          = some { b with
              expiresAt := now + cfg.defaultValiditySeconds * 1000,
              status := BadgeStatus.active }
        ∧ (∀ t0, b.expiresAt = t0 + cfg.defaultValiditySeconds * 1000 →
            t0 ≤ now →
            b.expiresAt ≤ now + cfg.defaultValiditySeconds * 1000
            ∧ (t0 < now →
              b.expiresAt < now + cfg.defaultValiditySeconds * 1000))) := by
  refine ⟨?_, ?_, ?_⟩
  · intro hb
    simp [renewBadge, haddr, hb]
  · intro oid b hb hrev
    simp [renewBadge, haddr, hb, hrev]
  · intro oid b hb hrev
    have hne : (b.status == BadgeStatus.revoked) = false := by
      simp [hrev]
    refine ⟨?_, ?_, ?_⟩
    · simp [renewBadge, haddr, hb, hne]
    · simp only [renewBadge, haddr, Bool.not_true, Bool.false_eq_true,
        if_false, hb, hne, badgeStoreSetRef]
      exact mapGet_mapSet_self
    · intro t0 ht0 hle
      omega

/-- Witness for the amended C8 theorem: renewing `exAddr`'s badge at a
later clock succeeds and rewrites only expiry and status. -/
theorem renewBadge_spec_witness :
    (renewBadge exCfgDemo exStoreActive 6000 exAddr).1
        = Outcome.ok { renewed := true,
                       new_expires_at := (6000 + 31536000 * 1000) / 1000,
                       message := "Badge successfully renewed" }
      ∧ mapGet (renewBadge exCfgDemo exStoreActive 6000 exAddr).2.heap
          "badge-1"
        = some { id := "badge-1", address := exAddr, issuer := "issuerAddr",
                 proofHash := "phfield", createdAt := 5000,
                 expiresAt := 6000 + 31536000 * 1000,
                 status := BadgeStatus.active, nonce := "nonce-1" } := by
  have H := (renewBadge_spec exCfgDemo exStoreActive 6000 exAddr
      (by decide)).2.2 "badge-1"
    { id := "badge-1", address := exAddr, issuer := "issuerAddr",
      proofHash := "phfield", createdAt := 5000, expiresAt := 31536005000,
      status := BadgeStatus.active, nonce := "nonce-1" }
    (by decide) (by decide)
  exact ⟨H.1, H.2.1⟩

/-- A store write whose record is not an active badge of `addr` cannot
make the active-badge scan for `addr` succeed. -/
theorem findActiveBadge_setRef_none {s : BadgeStore} {addr : String}
    (hno : findActiveBadge s addr = none) (k oid : String) {b : BadgeRecord}
    (hb : ¬(b.address = addr ∧ b.status = BadgeStatus.active)) :
    findActiveBadge (badgeStoreSetRef s k oid b) addr = none := by
  unfold findActiveBadge at hno ⊢
  rw [List.find?_eq_none] at hno ⊢
  intro b' hb'
  simp only [badgeValues, List.mem_filterMap, badgeStoreSetRef] at hb'
  obtain ⟨e, he, hget⟩ := hb'
  simp only [Bool.and_eq_true, beq_iff_eq, not_and, decide_eq_true_eq]
  intro haddr'
  rcases mem_mapSet he with rfl | he'
  · rw [mapGet_mapSet_self] at hget
    obtain rfl := Option.some.inj hget
    intro hact
    exact hb ⟨haddr', hact⟩
  · by_cases hoid : e.2 = oid
    · rw [hoid, mapGet_mapSet_self] at hget
      obtain rfl := Option.some.inj hget
      intro hact
      exact hb ⟨haddr', hact⟩
    · rw [mapGet_mapSet_ne hoid] at hget
      have hmem : b' ∈ badgeValues s :=
        List.mem_filterMap.mpr ⟨e, he', hget⟩
      have := hno b' hmem
      simp only [Bool.and_eq_true, beq_iff_eq, decide_eq_true_eq, not_and]
        at this
      exact this haddr'

/-- Every typed (`AppError`) failure of `requestIssuance` is a
Validation (400), NotFound (404) or Conflict (409). -/
theorem requestIssuance_app_err_codes (cfg : Config) (vs : VerificationStore)
    (s : BadgeStore) (now : Nat) (vid addr badgeId nonce : String)
    (chain : ChainResult) (ae : AppErr)
    (he : (requestIssuance cfg vs s now vid addr badgeId nonce chain).1
      = .err (.app ae)) :
    ae.statusCode = 400 ∨ ae.statusCode = 404 ∨ ae.statusCode = 409 := by
  unfold requestIssuance at he
  split at he
  · simp only [validationError] at he
    obtain rfl := Thrown.app.inj (Outcome.err.inj he)
    simp
  · split at he
    · simp only [conflictError] at he
      obtain rfl := Thrown.app.inj (Outcome.err.inj he)
      simp
    · split at he
      · simp only [notFoundError] at he
        obtain rfl := Thrown.app.inj (Outcome.err.inj he)
        simp
      · split at he
        · simp only [validationError] at he
          obtain rfl := Thrown.app.inj (Outcome.err.inj he)
          simp
        · split at he
          · simp only [validationError] at he
            obtain rfl := Thrown.app.inj (Outcome.err.inj he)
            simp
          · split at he
            · simp only [validationError] at he
              obtain rfl := Thrown.app.inj (Outcome.err.inj he)
              simp
            · split at he
              · split at he
                · exact absurd (Outcome.err.inj he) (by simp)
                · exact absurd he (by simp)
              · exact absurd he (by simp)

/-- When no active badge exists for `addr`, no failure of
`requestIssuance` for `addr` is a Conflict (409). -/
theorem requestIssuance_no_conflict_of_no_active (cfg : Config)
    (vs : VerificationStore) (s : BadgeStore) (now : Nat)
    (vid addr badgeId nonce : String) (chain : ChainResult)
    (hno : findActiveBadge s addr = none) (e : Thrown)
    (he : (requestIssuance cfg vs s now vid addr badgeId nonce chain).1
      = .err e) :
    (errorHandler e).1 ≠ 409 := by
  unfold requestIssuance at he
  rw [hno] at he
  split at he
  · obtain rfl := Outcome.err.inj he
    simp [validationError, errorHandler]
  · split at he
    next val heq => exact absurd heq (by simp)
    next heq =>
      split at he
      · obtain rfl := Outcome.err.inj he
        simp [notFoundError, errorHandler]
      · split at he
        · obtain rfl := Outcome.err.inj he
          simp [validationError, errorHandler]
        · split at he
          · obtain rfl := Outcome.err.inj he
            simp [validationError, errorHandler]
          · split at he
            · obtain rfl := Outcome.err.inj he
              simp [validationError, errorHandler]
            · simp only [] at he
              split at he
              · split at he
                · obtain rfl := Outcome.err.inj he
                  simp [errorHandler]
                · exact absurd he (by simp)
              · exact absurd he (by simp)

/-- **C4** (confirmed).  If the on-chain issuance call reports failure
after the local pending record was created, the record ends with status
`failed`, and no subsequent `requestIssuance` for the same address on the
resulting store can be rejected with Conflict — in particular a retry
with the (still valid) verification is not blocked by the failed
record. -/
theorem issuance_chain_failure_releases_address
    (cfg : Config) (vs : VerificationStore) (s : BadgeStore) (now : Nat)
    (vid addr badgeId nonce : String) (chain : ChainResult)
    (hvid : isValidUuid vid = true) (haddr : isValidAleoAddress addr = true)
    (hnoactive : findActiveBadge s addr = none)
    (v : VerificationRecord) (hv : getVerificationById vs vid = some v)
    (hst : v.status = VerificationStatus.verified)
    (hva : v.address = addr) (hexp : ¬ v.expiresAt < now)
    (hdemo : cfg.demoMode = false) (hchain : chain.success = false) :
    (requestIssuance cfg vs s now vid addr badgeId nonce chain).1
        = .err (.generic ("On-chain badge issuance failed: "
            ++ (chain.error.getD "Failed to issue badge on chain")))
      ∧ mapGet (requestIssuanceFinal cfg vs s now vid addr badgeId nonce
            chain).heap badgeId
        = some { id := badgeId, address := addr, issuer := cfg.issuerAddress,
                 proofHash := v.proofHash, createdAt := now,
                 expiresAt := now + cfg.defaultValiditySeconds * 1000,
                 status := BadgeStatus.failed, nonce := nonce }
      ∧ findActiveBadge (requestIssuanceFinal cfg vs s now vid addr badgeId
          nonce chain) addr = none
      ∧ (∀ (vs2 : VerificationStore) (now2 : Nat)
          (vid2 badgeId2 nonce2 : String) (chain2 : ChainResult) (e : Thrown),
          (requestIssuance cfg vs2
            (requestIssuanceFinal cfg vs s now vid addr badgeId nonce chain)
            now2 vid2 addr badgeId2 nonce2 chain2).1 = .err e →
          (errorHandler e).1 ≠ 409) := by
  have hfin : requestIssuanceFinal cfg vs s now vid addr badgeId nonce chain
      = badgeStoreSetRef (badgeStoreSetRef (badgeStoreSetRef
          (badgeStoreSetRef s badgeId badgeId
            { id := badgeId, address := addr, issuer := cfg.issuerAddress,
              proofHash := v.proofHash, createdAt := now,
              expiresAt := now + cfg.defaultValiditySeconds * 1000,
              status := BadgeStatus.pending, nonce := nonce })
          (addrKey addr) badgeId
            { id := badgeId, address := addr, issuer := cfg.issuerAddress,
              proofHash := v.proofHash, createdAt := now,
              expiresAt := now + cfg.defaultValiditySeconds * 1000,
              status := BadgeStatus.pending, nonce := nonce })
          badgeId badgeId
            { id := badgeId, address := addr, issuer := cfg.issuerAddress,
              proofHash := v.proofHash, createdAt := now,
              expiresAt := now + cfg.defaultValiditySeconds * 1000,
              status := BadgeStatus.failed, nonce := nonce })
          (addrKey addr) badgeId
            { id := badgeId, address := addr, issuer := cfg.issuerAddress,
              proofHash := v.proofHash, createdAt := now,
              expiresAt := now + cfg.defaultValiditySeconds * 1000,
              status := BadgeStatus.failed, nonce := nonce } := by
    simp [requestIssuanceFinal, requestIssuance, hvid, haddr, hnoactive, hv,
      hst, hva, hexp, hdemo, hchain]
  have hnofin : findActiveBadge (requestIssuanceFinal cfg vs s now vid addr
      badgeId nonce chain) addr = none := by
    rw [hfin]
    have hnotact : ∀ st, st ≠ BadgeStatus.active →
        ¬(addr = addr ∧ st = BadgeStatus.active) := by
      intro st hst' hc
      exact hst' hc.2
    refine findActiveBadge_setRef_none (findActiveBadge_setRef_none
      (findActiveBadge_setRef_none (findActiveBadge_setRef_none hnoactive
        _ _ ?_) _ _ ?_) _ _ ?_) _ _ ?_
    · exact hnotact BadgeStatus.pending (by simp)
    · exact hnotact BadgeStatus.pending (by simp)
    · exact hnotact BadgeStatus.failed (by simp)
    · exact hnotact BadgeStatus.failed (by simp)
  refine ⟨?_, ?_, hnofin, ?_⟩
  · simp [requestIssuance, hvid, haddr, hnoactive, hv, hst, hva, hexp,
      hdemo, hchain]
  · rw [hfin]
    simp only [badgeStoreSetRef]
    rw [mapGet_mapSet_self]
  · intro vs2 now2 vid2 badgeId2 nonce2 chain2 e he
    exact requestIssuance_no_conflict_of_no_active cfg vs2 _ now2 vid2 addr
      badgeId2 nonce2 chain2 hnofin e he

/-- Witness for C4: a concrete chain-rejected issuance for `exAddr` ends
`failed` and a retry in demo mode succeeds. -/
theorem issuance_chain_failure_releases_address_witness :
    (requestIssuance exCfgProd exVs BadgeStore.empty 5000 exVid exAddr
        "badge-1" "nonce-1" ⟨false, none, some "ledger rejected"⟩).1
        = .err (.generic
            "On-chain badge issuance failed: ledger rejected")
      ∧ mapGet (requestIssuanceFinal exCfgProd exVs BadgeStore.empty 5000
            exVid exAddr "badge-1" "nonce-1"
            ⟨false, none, some "ledger rejected"⟩).heap "badge-1"
        = some { id := "badge-1", address := exAddr, issuer := "issuerAddr",
                 proofHash := "phfield", createdAt := 5000,
                 expiresAt := 5000 + 31536000 * 1000,
                 status := BadgeStatus.failed, nonce := "nonce-1" } := by
  have H := issuance_chain_failure_releases_address exCfgProd exVs
    BadgeStore.empty 5000 exVid exAddr "badge-1" "nonce-1"
    ⟨false, none, some "ledger rejected"⟩ (by decide) (by decide) (by decide)
    exVerification (by decide) (by decide) (by decide) (by decide)
    (by decide) (by decide)
  exact ⟨H.1, H.2.1⟩

/-- **C9** (counterexample).  The claim says a rejected on-chain ledger
submission propagates with its specific external-service reason and is
never reported as the generic Internal (500) kind.  A concrete issuance
whose on-chain call fails throws a plain `Error`, which the
`errorHandler` middleware reports as `500 / INTERNAL_ERROR` with the
generic message — the specific reason is not in the response. -/
theorem requestIssuance_internal_error_counterexample :
    (requestIssuance exCfgProd exVs BadgeStore.empty 5000 exVid exAddr
        "badge-0" "nonce-0" ⟨false, none, some "ledger rejected"⟩).1
        = .err (.generic "On-chain badge issuance failed: ledger rejected")
      ∧ errorHandler
          (.generic "On-chain badge issuance failed: ledger rejected")
        = (500, "INTERNAL_ERROR", "An unexpected error occurred") :=
  ⟨by decide, by decide⟩

/-- **C9** (amended).  Every *typed* failure of `requestIssuance` is one
of the `AppError` kinds of the taxonomy — Validation 400, NotFound 404,
Conflict 409 — and the `errorHandler` reports it with its own status
code, code and message (`RateLimited` 429 is produced by the rate-limit
middleware before the handler runs).  A rejected or failed on-chain
ledger submission, however, is thrown as an untyped `Error`: it is
reported as the generic Internal kind (HTTP 500, `INTERNAL_ERROR`, the
generic message), with the specific reason only inside the thrown
error's message, not in the response. -/
theorem requestIssuance_error_reporting
    (cfg : Config) (vs : VerificationStore) (s : BadgeStore) (now : Nat)
    (vid addr badgeId nonce : String) (chain : ChainResult)
    (hvid : isValidUuid vid = true) (haddr : isValidAleoAddress addr = true)
    (hnoactive : findActiveBadge s addr = none)
    (v : VerificationRecord) (hv : getVerificationById vs vid = some v)
    (hst : v.status = VerificationStatus.verified)
    (hva : v.address = addr) (hexp : ¬ v.expiresAt < now)
    (hdemo : cfg.demoMode = false) (hchain : chain.success = false) :
    (∀ (cfg' : Config) (vs' : VerificationStore) (s' : BadgeStore)
      (now' : Nat) (vid' addr' badgeId' nonce' : String)
      (chain' : ChainResult) (ae : AppErr),
      (requestIssuance cfg' vs' s' now' vid' addr' badgeId' nonce'
        chain').1 = .err (.app ae) →
      errorHandler (.app ae) = (ae.statusCode, ae.code, ae.message)
      ∧ (ae.statusCode = 400 ∨ ae.statusCode = 404 ∨ ae.statusCode = 409))
    ∧ (requestIssuance cfg vs s now vid addr badgeId nonce chain).1
        = .err (.generic ("On-chain badge issuance failed: "
            ++ (chain.error.getD "Failed to issue badge on chain")))
    ∧ errorHandler (.generic ("On-chain badge issuance failed: "
          ++ (chain.error.getD "Failed to issue badge on chain")))
      = (500, "INTERNAL_ERROR", "An unexpected error occurred") := by
  refine ⟨?_, ?_, rfl⟩
  · intro cfg' vs' s' now' vid' addr' badgeId' nonce' chain' ae he
    exact ⟨rfl, requestIssuance_app_err_codes cfg' vs' s' now' vid' addr'
      badgeId' nonce' chain' ae he⟩
  · simp [requestIssuance, hvid, haddr, hnoactive, hv, hst, hva, hexp,
      hdemo, hchain]

/-- Witness for the amended C9 theorem at the concrete failing chain
call. -/
theorem requestIssuance_error_reporting_witness :
    (requestIssuance exCfgProd exVs BadgeStore.empty 6000 exVid exAddr
        "badge-9" "nonce-9" ⟨false, none, some "fee too low"⟩).1
        = .err (.generic "On-chain badge issuance failed: fee too low")
      ∧ errorHandler (.generic "On-chain badge issuance failed: fee too low")
        = (500, "INTERNAL_ERROR", "An unexpected error occurred") := by
  have H := requestIssuance_error_reporting exCfgProd exVs BadgeStore.empty
    6000 exVid exAddr "badge-9" "nonce-9" ⟨false, none, some "fee too low"⟩
    (by decide) (by decide) (by decide) exVerification (by decide)
    (by decide) (by decide) (by decide) (by decide) (by decide)
  exact ⟨H.2.1, H.2.2⟩

/-! ## The badge-store invariant

`StoreInv` is the inductive invariant maintained by every completed badge
operation.  It captures the aliasing discipline of the JavaScript store
(every object lives in the heap under its badge id and is registered in
the `Map` under that id; `addr:` keys point at objects whose `address`
field matches) together with the business invariants (no record rests in
`pending` between operations; at most one `active` record per address,
and the `addr:` index points at it). -/

structure StoreInv (s : BadgeStore) : Prop where
  entriesNodup : (s.entries.map Prod.fst).Nodup
  heapNodup : (s.heap.map Prod.fst).Nodup
  idEq : ∀ e ∈ s.heap, e.2.id = e.1
  notAddrShaped : ∀ e ∈ s.heap, isAddrKey e.1 = false
  registered : ∀ e ∈ s.heap, mapGet s.entries e.1 = some e.1
  keyShape : ∀ e ∈ s.entries, e.1 = e.2
    ∨ ∃ b, mapGet s.heap e.2 = some b ∧ e.1 = addrKey b.address
  noDangling : ∀ e ∈ s.entries, ∃ b, mapGet s.heap e.2 = some b
  noPending : ∀ e ∈ s.heap, e.2.status ≠ BadgeStatus.pending
  activeUnique : ∀ e1 ∈ s.heap, ∀ e2 ∈ s.heap,
    e1.2.address = e2.2.address → e1.2.status = BadgeStatus.active →
    e2.2.status = BadgeStatus.active → e1 = e2
  activeIndexed : ∀ e ∈ s.heap, e.2.status = BadgeStatus.active →
    mapGet s.entries (addrKey e.2.address) = some e.1
  addrValid : ∀ e ∈ s.heap, isValidAleoAddress e.2.address = true

theorem StoreInv.empty : StoreInv BadgeStore.empty := by
  refine ⟨?_, ?_, ?_, ?_, ?_, ?_, ?_, ?_, ?_, ?_, ?_⟩ <;>
    simp [BadgeStore.empty]

theorem StoreInv.pendingActive {s : BadgeStore} (hs : StoreInv s) :
    atMostOnePendingActive s := by
  intro e1 h1 e2 h2 haddr hp1 hp2
  have ha1 : e1.2.status = BadgeStatus.active := by
    rcases hp1 with hp1 | hp1
    · exact absurd hp1 (hs.noPending e1 h1)
    · exact hp1
  have ha2 : e2.2.status = BadgeStatus.active := by
    rcases hp2 with hp2 | hp2
    · exact absurd hp2 (hs.noPending e2 h2)
    · exact hp2
  exact hs.activeUnique e1 h1 e2 h2 haddr ha1 ha2

/-- In an invariant store, an active heap record for `addr` makes the
active-badge scan succeed. -/
theorem StoreInv.findActive_isSome {s : BadgeStore} (hs : StoreInv s)
    {e : String × BadgeRecord} (he : e ∈ s.heap)
    (haddr : e.2.address = addr) (hact : e.2.status = BadgeStatus.active) :
    findActiveBadge s addr ≠ none := by
  intro hno
  rw [findActiveBadge, List.find?_eq_none] at hno
  have hentry : (e.1, e.1) ∈ s.entries := mapGet_mem (hs.registered e he)
  have hderef : mapGet s.heap e.1 = some e.2 := by
    have := hs.idEq e he
    exact mapGet_eq_some_of_mem_nodup hs.heapNodup
      (by rw [show (e.1, e.2) = e from rfl]; exact he)
  have hval : e.2 ∈ badgeValues s :=
    List.mem_filterMap.mpr ⟨(e.1, e.1), hentry, hderef⟩
  have := hno e.2 hval
  simp [haddr, hact] at this

/-- In an invariant store, the `addr:` index only points at records whose
address field matches (the store-level form of C10). -/
theorem StoreInv.addrIndex {s : BadgeStore} (hs : StoreInv s) {a oid : String}
    (h : mapGet s.entries (addrKey a) = some oid) :
    ∃ b, mapGet s.heap oid = some b ∧ b.address = a := by
  have hmem := mapGet_mem h
  rcases hs.keyShape _ hmem with hk | ⟨b, hb, hkey⟩
  · exfalso
    obtain ⟨b, hb⟩ := hs.noDangling _ hmem
    have hbm := mapGet_mem hb
    have := hs.notAddrShaped _ hbm
    simp only at hk
    rw [← hk] at this
    rw [isAddrKey_addrKey] at this
    exact Bool.noConfusion this
  · exact ⟨b, hb, addrKey_inj hkey.symm⟩

theorem badgeStoreEntry_eq_some {s : BadgeStore} {k oid : String}
    {b : BadgeRecord} :
    badgeStoreEntry s k = some (oid, b)
      ↔ mapGet s.entries k = some oid ∧ mapGet s.heap oid = some b := by
  unfold badgeStoreEntry
  constructor
  · intro h
    rw [Option.bind_eq_some] at h
    obtain ⟨oid', hk, hmap⟩ := h
    rw [Option.map_eq_some'] at hmap
    obtain ⟨b', hb, hpair⟩ := hmap
    obtain ⟨rfl, rfl⟩ := Prod.mk.inj hpair
    exact ⟨hk, hb⟩
  · intro ⟨hk, hb⟩
    rw [hk, Option.some_bind, hb, Option.map_some']

/-- No active record for `addr` exists in the heap of an invariant store
whose active-badge scan fails. -/
theorem StoreInv.no_active_of_find_none {s : BadgeStore} (hs : StoreInv s)
    {addr : String} (hno : findActiveBadge s addr = none) :
    ∀ e ∈ s.heap, ¬(e.2.address = addr ∧ e.2.status = BadgeStatus.active) := by
  intro e he hc
  exact hs.findActive_isSome he hc.1 hc.2 hno

/-- Invariant preservation for an in-place mutation of an existing heap
object that keeps its id and address (renewal, lazy expiry flip). -/
theorem StoreInv.mutate {s : BadgeStore} (hs : StoreInv s) {oid : String}
    {b b' : BadgeRecord} (hb : mapGet s.heap oid = some b)
    (hid : b'.id = b.id) (haddr : b'.address = b.address)
    (hnp : b'.status ≠ BadgeStatus.pending)
    (hidx : b'.status = BadgeStatus.active →
      mapGet s.entries (addrKey b.address) = some oid) :
    StoreInv ⟨s.entries, mapSet s.heap oid b'⟩ := by
  have hbm : (oid, b) ∈ s.heap := mapGet_mem hb
  have hbid : b.id = oid := hs.idEq (oid, b) hbm
  have hmem' : ∀ e ∈ mapSet s.heap oid b',
      e = (oid, b') ∨ (e ∈ s.heap ∧ e.1 ≠ oid) :=
    fun e he => mem_mapSet_nodup hs.heapNodup he
  have hget' : ∀ {k : String}, k ≠ oid →
      mapGet (mapSet s.heap oid b') k = mapGet s.heap k :=
    fun hk => mapGet_mapSet_ne hk
  refine ⟨hs.entriesNodup, keys_nodup_mapSet hs.heapNodup, ?_, ?_, ?_, ?_,
    ?_, ?_, ?_, ?_, ?_⟩
  · intro e he
    rcases hmem' e he with rfl | ⟨he', _⟩
    · exact hid.trans hbid
    · exact hs.idEq e he'
  · intro e he
    rcases hmem' e he with rfl | ⟨he', _⟩
    · exact hs.notAddrShaped (oid, b) hbm
    · exact hs.notAddrShaped e he'
  · intro e he
    rcases hmem' e he with rfl | ⟨he', _⟩
    · exact hs.registered (oid, b) hbm
    · exact hs.registered e he'
  · intro e he
    rcases hs.keyShape e he with hk | ⟨c, hc, hk⟩
    · exact Or.inl hk
    · by_cases heq : e.2 = oid
      · refine Or.inr ⟨b', ?_, ?_⟩
        · rw [heq]
          exact mapGet_mapSet_self
        · rw [heq] at hc
          obtain rfl := Option.some.inj (hc.symm.trans hb)
          rw [hk, haddr]
      · exact Or.inr ⟨c, (hget' heq).symm ▸ hc, hk⟩
  · intro e he
    by_cases heq : e.2 = oid
    · exact ⟨b', heq ▸ mapGet_mapSet_self⟩
    · obtain ⟨c, hc⟩ := hs.noDangling e he
      exact ⟨c, (hget' heq).symm ▸ hc⟩
  · intro e he
    rcases hmem' e he with rfl | ⟨he', _⟩
    · exact hnp
    · exact hs.noPending e he'
  · intro e1 h1 e2 h2 ha hs1 hs2
    rcases hmem' e1 h1 with rfl | ⟨h1', h1ne⟩ <;>
      rcases hmem' e2 h2 with rfl | ⟨h2', h2ne⟩
    · rfl
    · exfalso
      have hidx2 := hs.activeIndexed e2 h2' hs2
      have : mapGet s.entries (addrKey b.address) = some e2.1 := by
        rw [← ha, haddr] at hidx2
        simpa using hidx2
      have := Option.some.inj ((hidx hs1).symm.trans this)
      exact h2ne this.symm
    · exfalso
      have hidx1 := hs.activeIndexed e1 h1' hs1
      have : mapGet s.entries (addrKey b.address) = some e1.1 := by
        rw [ha, haddr] at hidx1
        simpa using hidx1
      have := Option.some.inj ((hidx hs2).symm.trans this)
      exact h1ne this.symm
    · exact hs.activeUnique e1 h1' e2 h2' ha hs1 hs2
  · intro e he hact
    rcases hmem' e he with rfl | ⟨he', _⟩
    · simpa [haddr] using hidx hact
    · exact hs.activeIndexed e he' hact
  · intro e he
    rcases hmem' e he with rfl | ⟨he', _⟩
    · rw [haddr]
      exact hs.addrValid (oid, b) hbm
    · exact hs.addrValid e he'

/-- Invariant preservation for the creation of a new badge object under a
fresh id, registered under its id key and under the address key
(the completed issuance write, with final status `active` or `failed`). -/
theorem StoreInv.insertNew {s : BadgeStore} (hs : StoreInv s)
    {bid addr : String} {b' : BadgeRecord}
    (hfresh : mapGet s.heap bid = none) (hshape : isAddrKey bid = false)
    (hid : b'.id = bid) (haddr : b'.address = addr)
    (havalid : isValidAleoAddress addr = true)
    (hnp : b'.status ≠ BadgeStatus.pending)
    (hnoact : ∀ e ∈ s.heap,
      ¬(e.2.address = addr ∧ e.2.status = BadgeStatus.active)) :
    StoreInv ⟨mapSet (mapSet s.entries bid bid) (addrKey addr) bid,
              mapSet s.heap bid b'⟩ := by
  have hbidne : ∀ a, bid ≠ addrKey a := fun a => ne_addrKey_of_not_isAddrKey
    hshape a
  have holdid : ∀ e ∈ s.heap, e.1 ≠ bid := by
    intro e he hk
    exact mapGet_eq_none_not_mem hfresh e.2 (by rw [← hk]; exact he)
  have holdkey : ∀ e ∈ s.entries, e.1 ≠ bid := by
    intro e he hk
    rcases hs.keyShape e he with hsh | ⟨c, hc, hsh⟩
    · obtain ⟨c, hc⟩ := hs.noDangling e he
      exact holdid _ (mapGet_mem hc) (by rw [← hsh, hk])
    · exact hbidne c.address (hk ▸ hsh)
  have hmemH : ∀ e ∈ mapSet s.heap bid b',
      e = (bid, b') ∨ (e ∈ s.heap ∧ e.1 ≠ bid) :=
    fun e he => mem_mapSet_nodup hs.heapNodup he
  have hEnodup : ((mapSet s.entries bid bid).map Prod.fst).Nodup :=
    keys_nodup_mapSet hs.entriesNodup
  have hmemE : ∀ e ∈ mapSet (mapSet s.entries bid bid) (addrKey addr) bid,
      e = (addrKey addr, bid) ∨ e = (bid, bid)
        ∨ (e ∈ s.entries ∧ e.1 ≠ bid ∧ e.1 ≠ addrKey addr) := by
    intro e he
    rcases mem_mapSet_nodup hEnodup he with rfl | ⟨he1, hne1⟩
    · exact Or.inl rfl
    · rcases mem_mapSet_nodup hs.entriesNodup he1 with rfl | ⟨he2, hne2⟩
      · exact Or.inr (Or.inl rfl)
      · exact Or.inr (Or.inr ⟨he2, hne2, hne1⟩)
  have hgetE : ∀ {k : String}, k ≠ bid → k ≠ addrKey addr →
      mapGet (mapSet (mapSet s.entries bid bid) (addrKey addr) bid) k
        = mapGet s.entries k := by
    intro k h1 h2
    rw [mapGet_mapSet_ne h2, mapGet_mapSet_ne h1]
  have hgetBid : mapGet (mapSet (mapSet s.entries bid bid) (addrKey addr)
      bid) bid = some bid := by
    rw [mapGet_mapSet_ne (hbidne addr), mapGet_mapSet_self]
  have hgetAddr : mapGet (mapSet (mapSet s.entries bid bid) (addrKey addr)
      bid) (addrKey addr) = some bid := mapGet_mapSet_self
  have hgetH : ∀ {k : String}, k ≠ bid →
      mapGet (mapSet s.heap bid b') k = mapGet s.heap k :=
    fun hk => mapGet_mapSet_ne hk
  refine ⟨keys_nodup_mapSet hEnodup, keys_nodup_mapSet hs.heapNodup, ?_, ?_,
    ?_, ?_, ?_, ?_, ?_, ?_, ?_⟩
  · intro e he
    rcases hmemH e he with rfl | ⟨he', _⟩
    · exact hid
    · exact hs.idEq e he'
  · intro e he
    rcases hmemH e he with rfl | ⟨he', _⟩
    · exact hshape
    · exact hs.notAddrShaped e he'
  · intro e he
    rcases hmemH e he with rfl | ⟨he', hne⟩
    · exact hgetBid
    · rw [hgetE hne
        (ne_addrKey_of_not_isAddrKey (hs.notAddrShaped e he') addr)]
      exact hs.registered e he'
  · intro e he
    rcases hmemE e he with rfl | rfl | ⟨he', hne1, hne2⟩
    · refine Or.inr ⟨b', mapGet_mapSet_self, ?_⟩
      rw [haddr]
    · exact Or.inl rfl
    · rcases hs.keyShape e he' with hk | ⟨c, hc, hk⟩
      · exact Or.inl hk
      · refine Or.inr ⟨c, ?_, hk⟩
        rw [hgetH (holdid _ (mapGet_mem hc))]
        exact hc
  · intro e he
    rcases hmemE e he with rfl | rfl | ⟨he', hne1, hne2⟩
    · exact ⟨b', mapGet_mapSet_self⟩
    · exact ⟨b', mapGet_mapSet_self⟩
    · obtain ⟨c, hc⟩ := hs.noDangling e he'
      exact ⟨c, (hgetH (holdid _ (mapGet_mem hc))).symm ▸ hc⟩
  · intro e he
    rcases hmemH e he with rfl | ⟨he', _⟩
    · exact hnp
    · exact hs.noPending e he'
  · intro e1 h1 e2 h2 ha hs1 hs2
    rcases hmemH e1 h1 with rfl | ⟨h1', h1ne⟩ <;>
      rcases hmemH e2 h2 with rfl | ⟨h2', h2ne⟩
    · rfl
    · exact absurd ⟨by rw [← ha, haddr], hs2⟩ (hnoact e2 h2')
    · exact absurd ⟨by rw [ha, haddr], hs1⟩ (hnoact e1 h1')
    · exact hs.activeUnique e1 h1' e2 h2' ha hs1 hs2
  · intro e he hact
    rcases hmemH e he with rfl | ⟨he', hne⟩
    · rw [haddr]
      exact hgetAddr
    · have hnea : e.2.address ≠ addr := by
        intro hk
        exact hnoact e he' ⟨hk, hact⟩
      rw [hgetE (fun hk => hbidne e.2.address hk.symm)
          (fun hk => hnea (addrKey_inj hk))]
      exact hs.activeIndexed e he' hact
  · intro e he
    rcases hmemH e he with rfl | ⟨he', _⟩
    · rw [haddr]
      exact havalid
    · exact hs.addrValid e he'

/-- `atMostOnePendingActive` holds after inserting one fresh record for
`addr` into the heap of an invariant store with no active record for
`addr` — with any status, in particular `pending` (the issuance
intermediate state) and the final `active`/`failed`. -/
theorem pendingActive_insert {s : BadgeStore} (hs : StoreInv s)
    {addr bid : String} {b' : BadgeRecord} (haddr : b'.address = addr)
    (hnoact : ∀ e ∈ s.heap,
      ¬(e.2.address = addr ∧ e.2.status = BadgeStatus.active))
    (E : List (String × String)) :
    atMostOnePendingActive ⟨E, mapSet s.heap bid b'⟩ := by
  intro e1 h1 e2 h2 ha hp1 hp2
  simp only at h1 h2
  rcases mem_mapSet h1 with rfl | h1' <;> rcases mem_mapSet h2 with rfl | h2'
  · rfl
  · exfalso
    have ha2 : e2.2.status = BadgeStatus.active := by
      rcases hp2 with hp2 | hp2
      · exact absurd hp2 (hs.noPending e2 h2')
      · exact hp2
    exact hnoact e2 h2' ⟨by rw [← ha, haddr], ha2⟩
  · exfalso
    have ha1 : e1.2.status = BadgeStatus.active := by
      rcases hp1 with hp1 | hp1
      · exact absurd hp1 (hs.noPending e1 h1')
      · exact hp1
    exact hnoact e1 h1' ⟨by rw [ha, haddr], ha1⟩
  · exact hs.pendingActive e1 h1' e2 h2' ha hp1 hp2

/-! ### Shape of the store states produced by each operation -/

theorem requestIssuance_states_shape (cfg : Config) (vs : VerificationStore)
    (s : BadgeStore) (now : Nat) (vid addr bid nonce : String)
    (chain : ChainResult) (hshape : isAddrKey bid = false) :
    (requestIssuance cfg vs s now vid addr bid nonce chain).2 = []
    ∨ (isValidAleoAddress addr = true ∧ findActiveBadge s addr = none ∧
      ∃ (ph : String) (st : BadgeStatus),
        (st = BadgeStatus.active ∨ st = BadgeStatus.failed) ∧
        (requestIssuance cfg vs s now vid addr bid nonce chain).2
          = [⟨mapSet (mapSet s.entries bid bid) (addrKey addr) bid,
              mapSet s.heap bid
                { id := bid, address := addr, issuer := cfg.issuerAddress,
                  proofHash := ph, createdAt := now,
                  expiresAt := now + cfg.defaultValiditySeconds * 1000,
                  status := BadgeStatus.pending, nonce := nonce }⟩,
             ⟨mapSet (mapSet s.entries bid bid) (addrKey addr) bid,
              mapSet s.heap bid
                { id := bid, address := addr, issuer := cfg.issuerAddress,
                  proofHash := ph, createdAt := now,
                  expiresAt := now + cfg.defaultValiditySeconds * 1000,
                  status := st, nonce := nonce }⟩]) := by
  have hEbid : mapGet (mapSet (mapSet s.entries bid bid) (addrKey addr) bid)
      bid = some bid := by
    rw [mapGet_mapSet_ne (ne_addrKey_of_not_isAddrKey hshape addr),
      mapGet_mapSet_self]
  have hEaddr : mapGet (mapSet (mapSet s.entries bid bid) (addrKey addr) bid)
      (addrKey addr) = some bid := mapGet_mapSet_self
  by_cases h1 : (isValidUuid vid && isValidAleoAddress addr) = true
  · have haddr : isValidAleoAddress addr = true :=
      ((Bool.and_eq_true _ _).mp h1).2
    cases hfa : findActiveBadge s addr with
    | some b => exact Or.inl (by simp [requestIssuance, h1, hfa])
    | none =>
      cases hv : getVerificationById vs vid with
      | none => exact Or.inl (by simp [requestIssuance, h1, hfa, hv])
      | some v =>
        by_cases hst : (v.status != VerificationStatus.verified) = true
        · exact Or.inl (by simp [requestIssuance, h1, hfa, hv, hst])
        · by_cases hva : (v.address != addr) = true
          · exact Or.inl (by simp [requestIssuance, h1, hfa, hv, hst, hva])
          · by_cases hexp : v.expiresAt < now
            · exact Or.inl (by
                simp [requestIssuance, h1, hfa, hv, hst, hva, hexp])
            · refine Or.inr ⟨haddr, rfl, v.proofHash, ?_⟩
              by_cases hd : cfg.demoMode = true
              · refine ⟨BadgeStatus.active, Or.inl rfl, ?_⟩
                simp only [requestIssuance, h1, Bool.not_true,
                  Bool.false_eq_true, if_false, hfa, hv, hst, hva, hexp,
                  if_neg hexp, hd, Bool.not_false, if_true,
                  badgeStoreSetRef]
                rw [mapSet_mapSet_self, mapSet_mapSet_self,
                  mapSet_eq_of_mapGet hEbid, mapSet_eq_of_mapGet hEaddr,
                  mapSet_mapSet_self]
              · have hd' : cfg.demoMode = false := eq_false_of_ne_true hd
                by_cases hcs : chain.success = true
                · refine ⟨BadgeStatus.active, Or.inl rfl, ?_⟩
                  simp only [requestIssuance, h1, Bool.not_true,
                    Bool.false_eq_true, if_false, hfa, hv, hst, hva, hexp,
                    if_neg hexp, hd', hcs, Bool.not_false, if_true,
                    badgeStoreSetRef]
                  rw [mapSet_mapSet_self, mapSet_mapSet_self,
                    mapSet_eq_of_mapGet hEbid, mapSet_eq_of_mapGet hEaddr,
                    mapSet_mapSet_self]
                · have hcs' : chain.success = false := eq_false_of_ne_true hcs
                  refine ⟨BadgeStatus.failed, Or.inr rfl, ?_⟩
                  simp only [requestIssuance, h1, Bool.not_true,
                    Bool.false_eq_true, if_false, hfa, hv, hst, hva, hexp,
                    if_neg hexp, hd', hcs', Bool.not_false, if_true,
                    badgeStoreSetRef]
                  rw [mapSet_mapSet_self, mapSet_mapSet_self,
                    mapSet_eq_of_mapGet hEbid, mapSet_eq_of_mapGet hEaddr,
                    mapSet_mapSet_self]
  · exact Or.inl (by simp [requestIssuance, h1])

theorem renewBadge_state_shape (cfg : Config) (s : BadgeStore) (now : Nat)
    (address : String) (hs : StoreInv s) :
    (renewBadge cfg s now address).2 = s
    ∨ ∃ oid b, badgeStoreEntry s (addrKey address) = some (oid, b)
        ∧ b.status ≠ BadgeStatus.revoked
        ∧ b.address = address
        ∧ (renewBadge cfg s now address).2
          = ⟨s.entries, mapSet s.heap oid
              { b with expiresAt := now + cfg.defaultValiditySeconds * 1000,
                       status := BadgeStatus.active }⟩ := by
  by_cases h1 : isValidAleoAddress address = true
  · cases hb : badgeStoreEntry s (addrKey address) with
    | none => exact Or.inl (by simp [renewBadge, h1, hb])
    | some e =>
      obtain ⟨oid, b⟩ := e
      obtain ⟨hk, hh⟩ := badgeStoreEntry_eq_some.mp hb
      by_cases hrev : (b.status == BadgeStatus.revoked) = true
      · exact Or.inl (by simp [renewBadge, h1, hb, hrev])
      · have hba : b.address = address := by
          obtain ⟨b2, hb2, hba2⟩ := hs.addrIndex hk
          obtain rfl := Option.some.inj (hh.symm.trans hb2)
          exact hba2
        have hbid : b.id = oid := hs.idEq (oid, b) (mapGet_mem hh)
        have hreg : mapGet s.entries oid = some oid :=
          hs.registered (oid, b) (mapGet_mem hh)
        refine Or.inr ⟨oid, b, rfl, by simpa using hrev, hba, ?_⟩
        simp only [renewBadge, h1, Bool.not_true, Bool.false_eq_true,
          if_false, hb, hrev, badgeStoreSetRef, hbid]
        rw [mapSet_eq_of_mapGet hk, mapSet_eq_of_mapGet hreg,
          mapSet_mapSet_self]
  · exact Or.inl (by
      simp [renewBadge, eq_false_of_ne_true h1])

theorem getBadgeStatusRoute_state_shape (s : BadgeStore) (now : Nat)
    (address : String) :
    (getBadgeStatusRoute s now address).2 = s
    ∨ ∃ oid b, badgeStoreEntry s (addrKey address) = some (oid, b)
        ∧ b.status = BadgeStatus.active
        ∧ (getBadgeStatusRoute s now address).2
          = ⟨s.entries, mapSet s.heap oid
              { b with status := BadgeStatus.expired }⟩ := by
  by_cases h1 : isValidAleoAddress address = true
  · cases hb : badgeStoreEntry s (addrKey address) with
    | none => exact Or.inl (by simp [getBadgeStatusRoute, h1, hb])
    | some e =>
      obtain ⟨oid, b⟩ := e
      obtain ⟨hk, hh⟩ := badgeStoreEntry_eq_some.mp hb
      by_cases hflip : (b.expiresAt < now
          && b.status == BadgeStatus.active) = true
      · have hact : b.status = BadgeStatus.active := by
          have := ((Bool.and_eq_true _ _).mp hflip).2
          simpa using this
        refine Or.inr ⟨oid, b, rfl, hact, ?_⟩
        simp only [getBadgeStatusRoute, h1, Bool.not_true,
          Bool.false_eq_true, if_false, hb, hflip, if_true,
          badgeStoreSetRef]
        rw [mapSet_eq_of_mapGet hk]
      · exact Or.inl (by simp [getBadgeStatusRoute, h1, hb, hflip])
  · exact Or.inl (by
      simp [getBadgeStatusRoute, eq_false_of_ne_true h1])

/-! ### Invariant preservation over traces -/

theorem inv_opFinal (cfg : Config) {s : BadgeStore} (hs : StoreInv s)
    {op : BadgeOp} (hok : opOk s op = true) :
    StoreInv (opFinal cfg s op) := by
  cases op with
  | issue vs now vid addr bid nonce chain =>
    obtain ⟨hfresh0, hshape0⟩ := (Bool.and_eq_true _ _).mp hok
    have hfresh : mapGet s.heap bid = none := by
      rwa [Option.isNone_iff_eq_none] at hfresh0
    have hshape : isAddrKey bid = false := by
      rwa [Bool.not_eq_true'] at hshape0
    rcases requestIssuance_states_shape cfg vs s now vid addr bid nonce
        chain hshape with hnil | ⟨haddr, hfa, ph, st, hst, heq⟩
    · simp only [opFinal, opStates, hnil, List.getLastD]
      exact hs
    · simp only [opFinal, opStates, heq, List.getLastD]
      refine StoreInv.insertNew hs hfresh hshape rfl rfl haddr ?_
        (hs.no_active_of_find_none hfa)
      rcases hst with rfl | rfl <;> simp
  | renew now addr =>
    rcases renewBadge_state_shape cfg s now addr hs
        with hid | ⟨oid, b, hb, hrev, hba, heq⟩
    · simp only [opFinal, opStates, List.getLastD, hid]
      exact hs
    · simp only [opFinal, opStates, List.getLastD, heq]
      obtain ⟨hk, hh⟩ := badgeStoreEntry_eq_some.mp hb
      refine StoreInv.mutate hs hh rfl rfl (by simp) ?_
      intro _
      rw [hba]
      exact hk
  | readStatus now addr =>
    rcases getBadgeStatusRoute_state_shape s now addr
        with hid | ⟨oid, b, hb, hact, heq⟩
    · simp only [opFinal, opStates, List.getLastD, hid]
      exact hs
    · simp only [opFinal, opStates, List.getLastD, heq]
      obtain ⟨hk, hh⟩ := badgeStoreEntry_eq_some.mp hb
      refine StoreInv.mutate hs hh rfl rfl (by simp) ?_
      intro hc
      exact absurd hc (by simp)

theorem pa_opStates (cfg : Config) {s : BadgeStore} (hs : StoreInv s)
    {op : BadgeOp} (hok : opOk s op = true) :
    ∀ s' ∈ opStates cfg s op, atMostOnePendingActive s' := by
  cases op with
  | issue vs now vid addr bid nonce chain =>
    obtain ⟨hfresh0, hshape0⟩ := (Bool.and_eq_true _ _).mp hok
    have hshape : isAddrKey bid = false := by
      rwa [Bool.not_eq_true'] at hshape0
    rcases requestIssuance_states_shape cfg vs s now vid addr bid nonce
        chain hshape with hnil | ⟨haddr, hfa, ph, st, hst, heq⟩
    · simp only [opStates, hnil]
      intro s' hs'
      simp at hs'
    · simp only [opStates, heq]
      intro s' hs'
      rcases List.mem_cons.mp hs' with rfl | hs'
      · exact pendingActive_insert hs rfl (hs.no_active_of_find_none hfa) _
      · rcases List.mem_cons.mp hs' with rfl | hs'
        · exact pendingActive_insert hs rfl (hs.no_active_of_find_none hfa) _
        · simp at hs'
  | renew now addr =>
    intro s' hs'
    simp only [opStates, List.mem_singleton] at hs'
    subst hs'
    have : opFinal cfg s (BadgeOp.renew now addr)
        = (renewBadge cfg s now addr).2 := by
      simp [opFinal, opStates, List.getLastD]
    exact this ▸ (inv_opFinal cfg hs hok).pendingActive
  | readStatus now addr =>
    intro s' hs'
    simp only [opStates, List.mem_singleton] at hs'
    subst hs'
    have : opFinal cfg s (BadgeOp.readStatus now addr)
        = (getBadgeStatusRoute s now addr).2 := by
      simp [opFinal, opStates, List.getLastD]
    exact this ▸ (inv_opFinal cfg hs hok).pendingActive

theorem validTrace_invariant (cfg : Config) :
    ∀ (ops : List BadgeOp) {s : BadgeStore}, StoreInv s →
      validTrace cfg s ops = true →
      StoreInv (runTrace cfg s ops)
      ∧ (∀ s' ∈ statesFrom cfg s ops, atMostOnePendingActive s') := by
  intro ops
  induction ops with
  | nil =>
    intro s hs _
    exact ⟨hs, by simp [statesFrom]⟩
  | cons op rest ih =>
    intro s hs hv
    rw [show validTrace cfg s (op :: rest)
        = (opOk s op && validTrace cfg (opFinal cfg s op) rest) from rfl]
      at hv
    obtain ⟨hok, hrest⟩ := (Bool.and_eq_true _ _).mp hv
    have hinv' := inv_opFinal cfg hs hok
    obtain ⟨h1, h2⟩ := ih hinv' hrest
    refine ⟨h1, ?_⟩
    intro s' hs'
    rw [show statesFrom cfg s (op :: rest)
        = opStates cfg s op ++ statesFrom cfg (opFinal cfg s op) rest
      from rfl] at hs'
    rcases List.mem_append.mp hs' with hs' | hs'
    · exact pa_opStates cfg hs hok s' hs'
    · exact h2 s' hs'

/-! ## Claims over reachable stores (C1, C2, C10) -/

/-- **C1** (confirmed).  For every sequence of badge operations
(request-issuance, renew, status reads) starting from the empty badge
registry, at every point — the states between operations and the
intermediate state inside an issuance where the `pending` record has just
been written — at most one credential record with status `pending` or
`active` exists per address.  The trace's environment side conditions
(`validTrace`) are uuid freshness and uuid key shape. -/
theorem trace_at_most_one_pending_active (cfg : Config) (ops : List BadgeOp)
    (hv : validTrace cfg BadgeStore.empty ops = true) :
    ∀ s ∈ BadgeStore.empty :: statesFrom cfg BadgeStore.empty ops,
      atMostOnePendingActive s := by
  intro s hs
  rcases List.mem_cons.mp hs with rfl | hs
  · exact StoreInv.empty.pendingActive
  · exact (validTrace_invariant cfg ops StoreInv.empty hv).2 s hs

/-- Witness for C1: the final store of a concrete demo-mode trace
(issue, renew, read) satisfies the per-address uniqueness property. -/
theorem trace_at_most_one_pending_active_witness :
    atMostOnePendingActive (runTrace exCfgDemo BadgeStore.empty
      [BadgeOp.issue exVs 5000 exVid exAddr "badge-1" "nonce-1"
        ⟨true, some "tx1", none⟩,
       BadgeOp.renew 6000 exAddr,
       BadgeOp.readStatus 7000 exAddr]) :=
  trace_at_most_one_pending_active exCfgDemo
    [BadgeOp.issue exVs 5000 exVid exAddr "badge-1" "nonce-1"
      ⟨true, some "tx1", none⟩,
     BadgeOp.renew 6000 exAddr,
     BadgeOp.readStatus 7000 exAddr] (by decide)
    (runTrace exCfgDemo BadgeStore.empty
      [BadgeOp.issue exVs 5000 exVid exAddr "badge-1" "nonce-1"
        ⟨true, some "tx1", none⟩,
       BadgeOp.renew 6000 exAddr,
       BadgeOp.readStatus 7000 exAddr]) (by decide)

/-- **C2** (confirmed).  For every store reachable by a sequence of badge
operations from the empty registry, if a credential record with status
`pending` or `active` exists for the request's address at the time of the
call, then a schema-valid `requestIssuance` for that address fails with
Conflict (409, `ConflictError`) and creates no new record (the store is
unchanged).  In reachable stores no record rests in `pending` between
calls, so the existing record is in fact `active` and the
active-only scan of the handler finds it. -/
theorem reachable_issuance_conflict (cfg : Config) (ops : List BadgeOp)
    (hv : validTrace cfg BadgeStore.empty ops = true)
    (e : String × BadgeRecord)
    (he : e ∈ (runTrace cfg BadgeStore.empty ops).heap)
    (addr : String) (haddr : e.2.address = addr)
    (hpa : e.2.status = BadgeStatus.pending
      ∨ e.2.status = BadgeStatus.active)
    (vs : VerificationStore) (now : Nat) (vid bid nonce : String)
    (chain : ChainResult) (hvid : isValidUuid vid = true) :
    requestIssuance cfg vs (runTrace cfg BadgeStore.empty ops) now vid addr
        bid nonce chain
      = (.err (conflictError "Badge already exists for this address"), [])
    ∧ requestIssuanceFinal cfg vs (runTrace cfg BadgeStore.empty ops) now
        vid addr bid nonce chain
      = runTrace cfg BadgeStore.empty ops
    ∧ errorHandler (conflictError "Badge already exists for this address")
      = (409, "CONFLICT", "Badge already exists for this address") := by
  have hs := (validTrace_invariant cfg ops StoreInv.empty hv).1
  have hact : e.2.status = BadgeStatus.active := by
    rcases hpa with hpa | hpa
    · exact absurd hpa (hs.noPending e he)
    · exact hpa
  have havalid : isValidAleoAddress addr = true :=
    haddr ▸ hs.addrValid e he
  have hfind := hs.findActive_isSome he haddr hact
  cases hfa : findActiveBadge (runTrace cfg BadgeStore.empty ops) addr with
  | none => exact absurd hfa hfind
  | some b =>
    refine ⟨?_, ?_, rfl⟩
    · simp [requestIssuance, hvid, havalid, hfa]
    · simp [requestIssuanceFinal, requestIssuance, hvid, havalid, hfa,
        List.getLastD]

/-- Witness for C2: after a concrete demo-mode issuance for `exAddr`, a
second schema-valid issuance for `exAddr` answers 409 Conflict. -/
theorem reachable_issuance_conflict_witness :
    requestIssuance exCfgDemo exVs
        (runTrace exCfgDemo BadgeStore.empty
          [BadgeOp.issue exVs 5000 exVid exAddr "badge-1" "nonce-1"
            ⟨true, some "tx1", none⟩]) 6000 exVid exAddr "badge-2" "nonce-2"
        ⟨true, some "tx2", none⟩
      = (.err (conflictError "Badge already exists for this address"), []) :=
  (reachable_issuance_conflict exCfgDemo
    [BadgeOp.issue exVs 5000 exVid exAddr "badge-1" "nonce-1"
      ⟨true, some "tx1", none⟩] (by decide)
    ("badge-1",
      { id := "badge-1", address := exAddr, issuer := "issuerAddr",
        proofHash := "phfield", createdAt := 5000,
        expiresAt := 31536005000, status := BadgeStatus.active,
        nonce := "nonce-1" })
    (by decide) exAddr (by decide) (Or.inr (by decide)) exVs 6000 exVid
    "badge-2" "nonce-2" ⟨true, some "tx2", none⟩ (by decide)).1

/-- **C10** (confirmed).  In every store reachable by badge operations
from the empty registry, any record reachable through the key
`addr:A` has its `address` field equal to `A`; consequently
`getBadgeByAddress A` and `GET /badge/status/:address` only ever return
a badge belonging to `A`. -/
theorem addr_key_integrity (cfg : Config) (ops : List BadgeOp)
    (hv : validTrace cfg BadgeStore.empty ops = true) :
    (∀ a oid, mapGet (runTrace cfg BadgeStore.empty ops).entries
        (addrKey a) = some oid →
      ∃ b, mapGet (runTrace cfg BadgeStore.empty ops).heap oid = some b
        ∧ b.address = a)
    ∧ (∀ a b, getBadgeByAddress (runTrace cfg BadgeStore.empty ops) a
        = some b → b.address = a)
    ∧ (∀ (now : Nat) (a : String) (d : BadgeStatusData) (s2 : BadgeStore),
        getBadgeStatusRoute (runTrace cfg BadgeStore.empty ops) now a
          = (.ok d, s2) →
        d.has_badge = true →
        ∃ b, getBadgeByAddress (runTrace cfg BadgeStore.empty ops) a
            = some b
          ∧ b.address = a ∧ d.issuer = some b.issuer
          ∧ d.created_at = some (b.createdAt / 1000)) := by
  have hs := (validTrace_invariant cfg ops StoreInv.empty hv).1
  have hbyaddr : ∀ a b, getBadgeByAddress (runTrace cfg BadgeStore.empty
      ops) a = some b → b.address = a := by
    intro a b hget
    rw [getBadgeByAddress, badgeStoreGet, Option.map_eq_some'] at hget
    obtain ⟨⟨oid, b'⟩, hentry, hb⟩ := hget
    obtain rfl : b' = b := hb
    obtain ⟨hk, hh⟩ := badgeStoreEntry_eq_some.mp hentry
    obtain ⟨b2, hb2, hba⟩ := hs.addrIndex hk
    obtain rfl := Option.some.inj (hh.symm.trans hb2)
    exact hba
  refine ⟨fun a oid h => hs.addrIndex h, hbyaddr, ?_⟩
  intro now a d s2 hroute hhas
  by_cases h1 : isValidAleoAddress a = true
  · cases hb : badgeStoreEntry (runTrace cfg BadgeStore.empty ops)
        (addrKey a) with
    | none =>
      rw [show getBadgeStatusRoute (runTrace cfg BadgeStore.empty ops) now a
          = (.ok { has_badge := false, badge_status := "none",
                   expires_at := none, issuer := none, created_at := none,
                   message := "No badge found for this address" },
             runTrace cfg BadgeStore.empty ops) from by
        simp [getBadgeStatusRoute, h1, hb]] at hroute
      obtain ⟨hd, _⟩ := Prod.mk.inj hroute
      obtain rfl := Outcome.ok.inj hd
      simp at hhas
    | some p =>
      obtain ⟨oid, b⟩ := p
      have hgba : getBadgeByAddress (runTrace cfg BadgeStore.empty ops) a
          = some b := by
        rw [getBadgeByAddress, badgeStoreGet, hb, Option.map_some']
      refine ⟨b, hgba, hbyaddr a b hgba, ?_, ?_⟩ <;>
      · by_cases hflip : (b.expiresAt < now
            && b.status == BadgeStatus.active) = true
        · rw [show getBadgeStatusRoute (runTrace cfg BadgeStore.empty ops)
              now a
              = (.ok { has_badge := true,
                       badge_status := badgeStatusStr .expired,
                       expires_at := some (b.expiresAt / 1000),
                       issuer := some b.issuer,
                       created_at := some (b.createdAt / 1000),
                       message := "Badge is expired" },
                 ⟨(runTrace cfg BadgeStore.empty ops).entries,
                  mapSet (runTrace cfg BadgeStore.empty ops).heap oid
                    { b with status := BadgeStatus.expired }⟩) from by
            simp [getBadgeStatusRoute, h1, hb, hflip, badgeStoreSetRef,
              mapSet_eq_of_mapGet (badgeStoreEntry_eq_some.mp hb).1]]
            at hroute
          obtain ⟨hd, _⟩ := Prod.mk.inj hroute
          obtain rfl := Outcome.ok.inj hd
          rfl
        · rw [show getBadgeStatusRoute (runTrace cfg BadgeStore.empty ops)
              now a
              = (.ok { has_badge := true,
                       badge_status := badgeStatusStr b.status,
                       expires_at := some (b.expiresAt / 1000),
                       issuer := some b.issuer,
                       created_at := some (b.createdAt / 1000),
                       message := "Badge is " ++ badgeStatusStr b.status },
                 runTrace cfg BadgeStore.empty ops) from by
            simp [getBadgeStatusRoute, h1, hb, hflip]] at hroute
          obtain ⟨hd, _⟩ := Prod.mk.inj hroute
          obtain rfl := Outcome.ok.inj hd
          rfl
  · rw [show getBadgeStatusRoute (runTrace cfg BadgeStore.empty ops) now a
        = (.err (validationError "Invalid Aleo address"),
           runTrace cfg BadgeStore.empty ops) from by
      simp [getBadgeStatusRoute, eq_false_of_ne_true h1]] at hroute
    obtain ⟨hd, _⟩ := Prod.mk.inj hroute
    exact absurd hd (by simp)

/-- Witness for C10 at a concrete one-issuance trace: the badge stored
under `addr:exAddr` belongs to `exAddr`. -/
theorem addr_key_integrity_witness :
    getBadgeByAddress
        (runTrace exCfgDemo BadgeStore.empty
          [BadgeOp.issue exVs 5000 exVid exAddr "badge-1" "nonce-1"
            ⟨true, some "tx1", none⟩]) exAddr
      = some { id := "badge-1", address := exAddr, issuer := "issuerAddr",
               proofHash := "phfield", createdAt := 5000,
               expiresAt := 31536005000, status := BadgeStatus.active,
               nonce := "nonce-1" }
    ∧ ({ id := "badge-1", address := exAddr, issuer := "issuerAddr",
         proofHash := "phfield", createdAt := 5000,
         expiresAt := 31536005000, status := BadgeStatus.active,
         nonce := "nonce-1" } : BadgeRecord).address = exAddr :=
  ⟨by decide,
   (addr_key_integrity exCfgDemo
      [BadgeOp.issue exVs 5000 exVid exAddr "badge-1" "nonce-1"
        ⟨true, some "tx1", none⟩] (by decide)).2.1 exAddr
     { id := "badge-1", address := exAddr, issuer := "issuerAddr",
       proofHash := "phfield", createdAt := 5000,
       expiresAt := 31536005000, status := BadgeStatus.active,
       nonce := "nonce-1" } (by decide)⟩

end SybilShield
